import Mathlib

/-!
# Verification of the facet-coverage core against its specification

This file gives a shallow embedding, in Lean 4, of the core algorithms of the
facet-coverage repository (document parser, test-annotation scanner, structure
reader, integrity validator, coverage thresholds, identifier change detector)
and proves or refutes the frozen claims about them.

Modelling conventions:
* JavaScript strings are modelled as Lean `String` / `List Char`.  The
  JavaScript regular expressions used by the source are implemented as
  executable Lean functions with the exact matching semantics of the concrete
  patterns (greedy runs with the backtracking the specific pattern allows,
  left-to-right non-overlapping global scans).
* `String.prototype.toLowerCase` and the `\w`/`\s` character classes are
  modelled over the ASCII range (`\w` is ASCII-only in JavaScript; for `\s`
  and `toLowerCase` the model restricts the Unicode tails, which none of the
  claims exercise).
* File systems are passed explicitly (lists of path/content pairs or boolean
  oracles), mirroring exactly the control flow the source performs on the
  results of `existsSync`/`readFileSync`.
-/

namespace JsStr

/-- ASCII fragment of the JavaScript `\s` class (and of `String.trim`). -/
def isSpace (c : Char) : Bool :=
  c == ' ' || c == '\t' || c == '\n' || c == '\r' || c == '\x0b' || c == '\x0c'

/-- The JavaScript `\w` class: `[A-Za-z0-9_]` (ASCII only). -/
def isWordChar (c : Char) : Bool :=
  c.isAlpha || c.isDigit || c == '_'

/-- The character class `[a-z0-9-]` used by the marker patterns. -/
def isIdChar (c : Char) : Bool :=
  c.isLower || c.isDigit || c == '-'

/-- ASCII model of `String.prototype.toLowerCase`. -/
def jsToLower (c : Char) : Char :=
  if 65 ≤ c.toNat ∧ c.toNat ≤ 90 then Char.ofNat (c.toNat + 32) else c

/-- Drop leading JavaScript whitespace. -/
def trimLead (l : List Char) : List Char := l.dropWhile isSpace

/-- `String.prototype.trim` on character lists. -/
def trim (l : List Char) : List Char :=
  ((trimLead l).reverse.dropWhile isSpace).reverse

/-- `String.prototype.trim`. -/
def jsTrim (s : String) : String := ⟨trim s.toList⟩

/-- Helper for `splitChar`: accumulate the current fragment (reversed). -/
def splitCharAux (sep : Char) : List Char → List Char → List String
  | acc, [] => [⟨acc.reverse⟩]
  | acc, c :: cs =>
    if c = sep then ⟨acc.reverse⟩ :: splitCharAux sep [] cs
    else splitCharAux sep (c :: acc) cs

/-- JavaScript `s.split(sep)` for a one-character separator: the empty
string yields `[""]`, and a trailing separator yields a final empty
fragment. -/
def splitChar (sep : Char) (s : String) : List String :=
  splitCharAux sep [] s.toList

/-- JavaScript `content.split('\n')`. -/
def splitNewlines (s : String) : List String := splitChar '\n' s

end JsStr

namespace FacetParser

open JsStr

/-- Characters kept by `replace(/[^\w\s-]/g, '')` in `FacetParser.slugify`. -/
def keepSlugChar (c : Char) : Bool :=
  isWordChar c || isSpace c || c == '-'

/-- `replace(/[^\w\s-]/g, '')`: strip everything outside `\w`, `\s`, `-`. -/
def filterWord (l : List Char) : List Char := l.filter keepSlugChar

/-- State machine for `replace(/\s+/g, '-')`: each maximal run of whitespace
becomes a single hyphen.  The boolean records whether the previous character
belonged to a whitespace run. -/
def spacesAux : Bool → List Char → List Char
  | _, [] => []
  | prev, c :: cs =>
    if isSpace c then
      (if prev then spacesAux true cs else '-' :: spacesAux true cs)
    else c :: spacesAux false cs

/-- `replace(/\s+/g, '-')`. -/
def spacesToHyphens (l : List Char) : List Char := spacesAux false l

/-- State machine for the hyphen-run replacement (regex `-+` to `-`, global):
each maximal run of hyphens
becomes a single hyphen. -/
def collapseAux : Bool → List Char → List Char
  | _, [] => []
  | prev, c :: cs =>
    if c == '-' then
      (if prev then collapseAux true cs else '-' :: collapseAux true cs)
    else c :: collapseAux false cs

/-- The hyphen-run replacement (regex `-+` to `-`, global). -/
def collapseHyphens (l : List Char) : List Char := collapseAux false l

/-- Remove a single leading hyphen, if any (the `^-` alternative of
`replace(/^-|-$/g, '')`). -/
def dropOneLead : List Char → List Char
  | [] => []
  | c :: cs => if c = '-' then cs else c :: cs

/-- `replace(/^-|-$/g, '')`: the global regex removes at most one leading and
at most one trailing hyphen. -/
def trimEdgeHyphens (l : List Char) : List Char :=
  (dropOneLead ((dropOneLead l).reverse)).reverse

/-- Embedding of `FacetParser.slugify` (src/src/core/FacetParser.ts:12-20):
lowercase, `trim()`, strip to `[\w\s-]`, whitespace runs to `-`, collapse `-`
runs, strip one leading/trailing `-`. -/
def slugify (s : String) : String :=
  ⟨trimEdgeHyphens (collapseHyphens (spacesToHyphens (filterWord
      (trim (s.toList.map jsToLower)))))⟩

/-- Drop every leading hyphen. -/
def dropAllHy (l : List Char) : List Char := l.dropWhile (fun c => c == '-')

/-- Trim all leading and trailing hyphens (the spec's "trimming
leading/trailing hyphens"). -/
def trimAllHyphens (l : List Char) : List Char :=
  (dropAllHy ((dropAllHy l).reverse)).reverse

/-- Characters kept by the claim's wording for C4: letters, digits, spaces
and hyphens (underscores are *not* kept). -/
def keepClaimChar (c : Char) : Bool :=
  c.isAlpha || c.isDigit || isSpace c || c == '-'

/-- Slugify as the claim C4 words it: lowercase, strip every character that
is not a letter, digit, space or hyphen, collapse whitespace runs to single
hyphens, collapse repeated hyphens, trim leading/trailing hyphens. -/
def slugifySpecClaimed (s : String) : String :=
  ⟨trimAllHyphens (collapseHyphens (spacesToHyphens
      ((s.toList.map jsToLower).filter keepClaimChar)))⟩

/-- Characters kept by the amended wording: letters, digits, underscores,
spaces and hyphens. -/
def keepAmendedChar (c : Char) : Bool :=
  c.isAlpha || c.isDigit || c == '_' || isSpace c || c == '-'

/-- Slugify as amended: like `slugifySpecClaimed` but underscores survive
(the source's `\w` class contains `_`). -/
def slugifySpecAmended (s : String) : String :=
  ⟨trimAllHyphens (collapseHyphens (spacesToHyphens
      ((s.toList.map jsToLower).filter keepAmendedChar)))⟩

/-- Scan state after consuming a list: whether the last character consumed
satisfied `p` (starting from state `b`). -/
def lastState (p : Char → Bool) : Bool → List Char → Bool
  | b, [] => b
  | _, c :: cs => lastState p (p c) cs

/-- No two adjacent hyphens. -/
def NoHH (l : List Char) : Prop := l.Chain' (fun a b => ¬(a = '-' ∧ b = '-'))

theorem spacesAux_true (xs : List Char) :
    spacesAux true xs = spacesAux false (JsStr.trimLead xs) := by
  induction xs with
  | nil => rfl
  | cons c cs ih =>
    by_cases h : isSpace c <;>
      simp [spacesAux, JsStr.trimLead, List.dropWhile_cons, h, ih]

theorem spacesAux_append_space {c : Char} (hc : isSpace c = true) :
    ∀ (xs : List Char) (b : Bool),
      spacesAux b (xs ++ [c])
        = spacesAux b xs ++ (if lastState isSpace b xs then [] else ['-'])
  | [], b => by cases b <;> simp [spacesAux, hc, lastState]
  | x :: xs, b => by
    by_cases hx : isSpace x <;> cases b <;>
      simp [spacesAux, hx, lastState, spacesAux_append_space hc xs]

theorem mem_spacesAux {c : Char} :
    ∀ {b : Bool} {xs : List Char}, c ∈ spacesAux b xs →
      isSpace c = false ∧ (c = '-' ∨ c ∈ xs) := by
  intro b xs
  induction xs generalizing b with
  | nil => intro h; simp [spacesAux] at h
  | cons x cs ih =>
    intro h
    simp only [spacesAux] at h
    by_cases hx : isSpace x
    · rw [if_pos hx] at h
      have step : c ∈ spacesAux true cs ∨ c = '-' := by
        cases b with
        | true => exact Or.inl (by simpa using h)
        | false =>
          rw [if_neg (by simp)] at h
          rcases List.mem_cons.mp h with h | h
          · exact Or.inr h
          · exact Or.inl h
      rcases step with h' | h'
      · rcases ih h' with ⟨h1, h2⟩
        exact ⟨h1, h2.imp id (fun hm => List.mem_cons_of_mem x hm)⟩
      · exact ⟨by rw [h']; decide, Or.inl h'⟩
    · rw [if_neg hx] at h
      rcases List.mem_cons.mp h with h | h
      · subst h
        exact ⟨by simpa using hx, Or.inr (List.mem_cons_self _ _)⟩
      · rcases ih h with ⟨h1, h2⟩
        exact ⟨h1, h2.imp id (fun hm => List.mem_cons_of_mem x hm)⟩

theorem spacesAux_eq_self {xs : List Char} (h : ∀ c ∈ xs, isSpace c = false) :
    ∀ b, spacesAux b xs = xs := by
  induction xs with
  | nil => intro b; rfl
  | cons x cs ih =>
    intro b
    have hx : isSpace x = false := h x (List.mem_cons_self _ _)
    simp [spacesAux, hx, ih (fun c hc => h c (List.mem_cons_of_mem x hc))]

theorem collapseAux_true (ys : List Char) :
    collapseAux true ys = collapseAux false (dropAllHy ys) := by
  induction ys with
  | nil => rfl
  | cons c cs ih =>
    by_cases h : c == '-' <;>
      simp [collapseAux, dropAllHy, List.dropWhile_cons, h, ih]

theorem collapseAux_append_hy :
    ∀ (ys : List Char) (b : Bool),
      collapseAux b (ys ++ ['-'])
        = collapseAux b ys
            ++ (if lastState (fun c => c == '-') b ys then [] else ['-'])
  | [], b => by cases b <;> simp [collapseAux, lastState]
  | y :: ys, b => by
    by_cases hy : y == '-' <;> cases b <;>
      simp [collapseAux, hy, lastState, collapseAux_append_hy ys]

theorem mem_collapseAux {c : Char} :
    ∀ {b : Bool} {ys : List Char}, c ∈ collapseAux b ys → c ∈ ys := by
  intro b ys
  induction ys generalizing b with
  | nil => intro h; simp [collapseAux] at h
  | cons y cs ih =>
    intro h
    simp only [collapseAux] at h
    by_cases hy : y == '-'
    · have hy' : y = '-' := by simpa using hy
      rw [if_pos hy] at h
      have step : c ∈ collapseAux true cs ∨ c = '-' := by
        cases b with
        | true => exact Or.inl (by simpa using h)
        | false =>
          rw [if_neg (by simp)] at h
          rcases List.mem_cons.mp h with h | h
          · exact Or.inr h
          · exact Or.inl h
      rcases step with h' | h'
      · exact List.mem_cons_of_mem y (ih h')
      · rw [h', ← hy']
        exact List.mem_cons_self _ _
    · rw [if_neg hy] at h
      rcases List.mem_cons.mp h with h | h
      · rw [h]; exact List.mem_cons_self _ _
      · exact List.mem_cons_of_mem y (ih h)

theorem collapseAux_spec :
    ∀ (ys : List Char), (∀ b, NoHH (collapseAux b ys)) ∧
      (∀ c, (collapseAux true ys).head? = some c → c ≠ '-') := by
  intro ys
  induction ys with
  | nil =>
    refine ⟨fun b => List.chain'_nil, fun c h => ?_⟩
    simp [collapseAux] at h
  | cons y cs ih =>
    obtain ⟨ih1, ih2⟩ := ih
    by_cases hy : y == '-'
    · have hy' : y = '-' := by simpa using hy
      subst hy'
      have hfalse : collapseAux false ('-' :: cs) = '-' :: collapseAux true cs := by
        simp [collapseAux]
      have htrue : collapseAux true ('-' :: cs) = collapseAux true cs := by
        simp [collapseAux]
      refine ⟨fun b => ?_, fun c h => ?_⟩
      · cases b with
        | true => rw [htrue]; exact ih1 true
        | false =>
          rw [hfalse, NoHH, List.chain'_cons']
          refine ⟨fun z hz hand => ?_, ih1 true⟩
          exact ih2 z (Option.mem_def.mp hz) hand.2
      · rw [htrue] at h
        exact ih2 c h
    · have hy' : ¬ y = '-' := by simpa using hy
      have hstep : ∀ b, collapseAux b (y :: cs) = y :: collapseAux false cs := by
        intro b
        cases b <;> simp [collapseAux, hy]
      refine ⟨fun b => ?_, fun c h => ?_⟩
      · rw [hstep b, NoHH, List.chain'_cons']
        exact ⟨fun z _ hand => hy' hand.1, ih1 false⟩
      · rw [hstep true, List.head?_cons] at h
        have hyc : y = c := by injection h
        rw [← hyc]
        exact hy'

theorem collapseAux_eq_self :
    ∀ {ys : List Char}, NoHH ys →
      collapseAux false ys = ys ∧
        (ys.head? ≠ some '-' → collapseAux true ys = ys) := by
  intro ys
  induction ys with
  | nil => intro _; exact ⟨rfl, fun _ => rfl⟩
  | cons y cs ih =>
    intro h
    rw [NoHH, List.chain'_cons'] at h
    obtain ⟨hhead, htail⟩ := h
    by_cases hy : y == '-'
    · have hy' : y = '-' := by simpa using hy
      subst hy'
      have hcs : cs.head? ≠ some '-' := by
        intro hc
        exact hhead '-' (Option.mem_def.mpr hc) ⟨rfl, rfl⟩
      have h2 := (ih htail).2 hcs
      constructor
      · simp [collapseAux, h2]
      · intro hne
        exact absurd rfl hne
    · have h1 := (ih htail).1
      constructor
      · simp [collapseAux, hy, h1]
      · intro _
        simp [collapseAux, hy, h1]

theorem head?_dropWhile_not {p : Char → Bool} :
    ∀ {l : List Char} {c : Char}, (l.dropWhile p).head? = some c → p c = false := by
  intro l
  induction l with
  | nil => intro c h; simp at h
  | cons x xs ih =>
    intro c h
    rw [List.dropWhile_cons] at h
    by_cases hx : p x
    · rw [if_pos hx] at h
      exact ih h
    · rw [if_neg hx, List.head?_cons] at h
      have hxc : x = c := by injection h
      rw [← hxc]
      simpa using hx

theorem dropAllHy_eq_self {l : List Char} (h : l.head? ≠ some '-') :
    dropAllHy l = l := by
  cases l with
  | nil => rfl
  | cons c cs =>
    have : ¬ c = '-' := fun hc => h (by simp [hc])
    simp [dropAllHy, List.dropWhile_cons, this]

theorem trimAll_cons_hy (w : List Char) :
    trimAllHyphens ('-' :: w) = trimAllHyphens w := by
  simp [trimAllHyphens, dropAllHy, List.dropWhile_cons]

theorem trimAll_snoc_hy (w : List Char) :
    trimAllHyphens (w ++ ['-']) = trimAllHyphens w := by
  unfold trimAllHyphens
  rw [show dropAllHy (w ++ ['-']) =
      if (dropAllHy w).isEmpty then dropAllHy ['-'] else dropAllHy w ++ ['-'] from
    List.dropWhile_append]
  by_cases h : (dropAllHy w).isEmpty
  · rw [if_pos h, List.isEmpty_iff.mp h]
    rfl
  · rw [if_neg h]
    rw [show (dropAllHy w ++ ['-']).reverse = '-' :: (dropAllHy w).reverse from by simp]
    rw [show dropAllHy ('-' :: (dropAllHy w).reverse)
        = dropAllHy ((dropAllHy w).reverse) from by
      simp [dropAllHy, List.dropWhile_cons]]

theorem getLast?_dropWhile {p : Char → Bool} :
    ∀ {l : List Char}, l.dropWhile p ≠ [] → (l.dropWhile p).getLast? = l.getLast? := by
  intro l
  induction l with
  | nil => intro h; simp at h
  | cons x xs ih =>
    intro h
    rw [List.dropWhile_cons] at h ⊢
    by_cases hx : p x
    · rw [if_pos hx] at h ⊢
      rw [ih h]
      cases xs with
      | nil =>
        rw [List.dropWhile_nil] at h
        exact absurd rfl h
      | cons a as => rw [List.getLast?_cons_cons]
    · rw [if_neg hx]

theorem trimAll_getLast {l : List Char} {c : Char}
    (h : (trimAllHyphens l).getLast? = some c) : c ≠ '-' := by
  unfold trimAllHyphens dropAllHy at h
  rw [List.getLast?_reverse] at h
  intro hc
  subst hc
  exact absurd (head?_dropWhile_not h) (by simp)

theorem trimAll_head {l : List Char} {c : Char}
    (h : (trimAllHyphens l).head? = some c) : c ≠ '-' := by
  unfold trimAllHyphens dropAllHy at h
  rw [List.head?_reverse] at h
  have hne : List.dropWhile (fun c => c == '-')
      ((List.dropWhile (fun c => c == '-') l).reverse) ≠ [] := by
    intro he; rw [he] at h; simp at h
  rw [getLast?_dropWhile hne, List.getLast?_reverse] at h
  intro hc
  subst hc
  exact absurd (head?_dropWhile_not h) (by simp)

theorem trimAll_eq_self {l : List Char}
    (h1 : l.head? ≠ some '-') (h2 : l.getLast? ≠ some '-') :
    trimAllHyphens l = l := by
  unfold trimAllHyphens
  rw [dropAllHy_eq_self h1]
  rw [dropAllHy_eq_self (by rwa [List.head?_reverse])]
  exact List.reverse_reverse l

theorem noHH_tail : ∀ {l : List Char}, NoHH l → NoHH l.tail := by
  intro l h
  cases l with
  | nil => exact h
  | cons c cs => exact List.Chain'.tail h

theorem dropOneLead_eq {l : List Char} (h : NoHH l) :
    dropOneLead l = dropAllHy l := by
  cases l with
  | nil => rfl
  | cons c cs =>
    by_cases hc : c = '-'
    · subst hc
      rw [NoHH, List.chain'_cons'] at h
      have hhd : cs.head? ≠ some '-' := by
        intro hcs
        exact h.1 '-' (Option.mem_def.mpr hcs) ⟨rfl, rfl⟩
      have h1 : dropOneLead ('-' :: cs) = cs := by simp [dropOneLead]
      have h2 : dropAllHy ('-' :: cs) = cs := by
        rw [show dropAllHy ('-' :: cs) = dropAllHy cs from by
          simp [dropAllHy, List.dropWhile_cons]]
        exact dropAllHy_eq_self hhd
      rw [h1, h2]
    · have h1 : dropOneLead (c :: cs) = c :: cs := by simp [dropOneLead, hc]
      have h2 : dropAllHy (c :: cs) = c :: cs :=
        dropAllHy_eq_self (by intro hcontra; exact hc (by injection hcontra))
      rw [h1, h2]

theorem noHH_reverse {l : List Char} : NoHH l.reverse ↔ NoHH l := by
  rw [NoHH, NoHH, List.chain'_reverse]
  constructor <;> intro h <;>
    exact h.imp (fun a b hab ⟨x, y⟩ => hab ⟨y, x⟩)

theorem noHH_dropAllHy : ∀ {l : List Char}, NoHH l → NoHH (dropAllHy l) := by
  intro l
  induction l with
  | nil => intro h; exact h
  | cons c cs ih =>
    intro h
    by_cases hc : c = '-'
    · rw [show dropAllHy (c :: cs) = dropAllHy cs from by
        simp [dropAllHy, List.dropWhile_cons, hc]]
      exact ih (noHH_tail h)
    · rw [dropAllHy_eq_self (by intro hx; exact hc (by injection hx))]
      exact h

theorem trimEdge_eq_trimAll {l : List Char} (h : NoHH l) :
    trimEdgeHyphens l = trimAllHyphens l := by
  unfold trimEdgeHyphens trimAllHyphens
  rw [dropOneLead_eq h]
  rw [dropOneLead_eq (noHH_reverse.mpr (noHH_dropAllHy h))]

theorem noHH_trimAll {w : List Char} (h : NoHH w) : NoHH (trimAllHyphens w) := by
  unfold trimAllHyphens
  rw [noHH_reverse]
  apply noHH_dropAllHy
  rw [noHH_reverse]
  exact noHH_dropAllHy h

theorem trimAll_collapse_dropHy :
    ∀ (z : List Char),
      trimAllHyphens (collapseAux false (dropAllHy z))
        = trimAllHyphens (collapseAux false z) := by
  intro z
  induction z with
  | nil => rfl
  | cons c cs ih =>
    by_cases hc : c = '-'
    · subst hc
      calc trimAllHyphens (collapseAux false (dropAllHy ('-' :: cs)))
          = trimAllHyphens (collapseAux false (dropAllHy cs)) := by
            rw [show dropAllHy ('-' :: cs) = dropAllHy cs from by
              simp [dropAllHy, List.dropWhile_cons]]
        _ = trimAllHyphens (collapseAux false cs) := ih
        _ = trimAllHyphens (collapseAux false ('-' :: cs)) := by
            rw [show collapseAux false ('-' :: cs) = '-' :: collapseAux true cs from by
              simp [collapseAux]]
            rw [trimAll_cons_hy, collapseAux_true, ih]
    · rw [dropAllHy_eq_self (by intro hx; exact hc (by injection hx))]

theorem trimAll_spaces_dropSp (F : List Char) :
    trimAllHyphens (collapseAux false (spacesAux false (JsStr.trimLead F)))
      = trimAllHyphens (collapseAux false (spacesAux false F)) := by
  cases F with
  | nil => rfl
  | cons f F0 =>
    by_cases hf : isSpace f
    · rw [show JsStr.trimLead (f :: F0) = JsStr.trimLead F0 from by
        simp [JsStr.trimLead, List.dropWhile_cons, hf]]
      rw [show spacesAux false (f :: F0) = '-' :: spacesAux true F0 from by
        simp [spacesAux, hf]]
      rw [show collapseAux false ('-' :: spacesAux true F0)
          = '-' :: collapseAux true (spacesAux true F0) from by simp [collapseAux]]
      rw [trimAll_cons_hy, collapseAux_true, trimAll_collapse_dropHy, spacesAux_true]
    · rw [show JsStr.trimLead (f :: F0) = f :: F0 from by
        simp [JsStr.trimLead, List.dropWhile_cons, hf]]

theorem trimAll_pipeline_trimLead (ls : List Char) :
    trimAllHyphens (collapseAux false (spacesAux false (filterWord (JsStr.trimLead ls))))
      = trimAllHyphens (collapseAux false (spacesAux false (filterWord ls))) := by
  induction ls with
  | nil => rfl
  | cons c ls0 ih =>
    by_cases hc : isSpace c
    · rw [show JsStr.trimLead (c :: ls0) = JsStr.trimLead ls0 from by
        simp [JsStr.trimLead, List.dropWhile_cons, hc]]
      rw [ih]
      rw [show filterWord (c :: ls0) = c :: filterWord ls0 from by
        simp [filterWord, List.filter_cons, keepSlugChar, hc]]
      rw [show spacesAux false (c :: filterWord ls0)
          = '-' :: spacesAux true (filterWord ls0) from by simp [spacesAux, hc]]
      rw [show collapseAux false ('-' :: spacesAux true (filterWord ls0))
          = '-' :: collapseAux true (spacesAux true (filterWord ls0)) from by
        simp [collapseAux]]
      rw [trimAll_cons_hy, collapseAux_true, trimAll_collapse_dropHy, spacesAux_true,
        trimAll_spaces_dropSp]
    · rw [show JsStr.trimLead (c :: ls0) = c :: ls0 from by
        simp [JsStr.trimLead, List.dropWhile_cons, hc]]

theorem trimAll_pipeline_trimTrail (ls : List Char) :
    trimAllHyphens (collapseAux false (spacesAux false (filterWord
        ((ls.reverse.dropWhile isSpace).reverse))))
      = trimAllHyphens (collapseAux false (spacesAux false (filterWord ls))) := by
  induction ls using List.reverseRecOn with
  | nil => rfl
  | append_singleton ls a ih =>
    by_cases ha : isSpace a
    · rw [show ((ls ++ [a]).reverse.dropWhile isSpace).reverse
          = (ls.reverse.dropWhile isSpace).reverse from by
        simp [List.dropWhile_cons, ha]]
      rw [ih]
      rw [show filterWord (ls ++ [a]) = filterWord ls ++ [a] from by
        simp [filterWord, List.filter_append, List.filter_cons, keepSlugChar, ha]]
      rw [spacesAux_append_space ha]
      by_cases hlast : lastState isSpace false (filterWord ls)
      · rw [if_pos hlast, List.append_nil]
      · rw [if_neg hlast]
        rw [collapseAux_append_hy]
        by_cases hl2 : lastState (fun c => c == '-') false (spacesAux false (filterWord ls))
        · rw [if_pos hl2, List.append_nil]
        · rw [if_neg hl2, trimAll_snoc_hy]
    · rw [show ((ls ++ [a]).reverse.dropWhile isSpace).reverse = ls ++ [a] from by
        simp [List.dropWhile_cons, ha]]

/-- The source's slugify equals the amended specification pipeline: `trim()`
is redundant, the one-each edge-hyphen strip equals trimming all edge hyphens
(no double hyphens survive collapsing), and the kept character classes agree
once underscores are included. -/
theorem slugify_eq_specAmended (s : String) :
    slugify s = slugifySpecAmended s := by
  unfold slugify slugifySpecAmended
  apply congrArg String.mk
  rw [show (s.toList.map jsToLower).filter keepAmendedChar
      = filterWord (s.toList.map jsToLower) from
    List.filter_congr (fun c _ => by
      simp [keepAmendedChar, keepSlugChar, isWordChar, Bool.or_assoc])]
  show trimEdgeHyphens (collapseAux false (spacesAux false (filterWord
      (JsStr.trim (s.toList.map jsToLower)))))
    = trimAllHyphens (collapseAux false (spacesAux false (filterWord
      (s.toList.map jsToLower))))
  rw [trimEdge_eq_trimAll ((collapseAux_spec _).1 false)]
  rw [show JsStr.trim (s.toList.map jsToLower)
      = ((JsStr.trimLead (s.toList.map jsToLower)).reverse.dropWhile isSpace).reverse
      from rfl]
  rw [trimAll_pipeline_trimTrail, trimAll_pipeline_trimLead]

theorem jsToLower_toNat_not_upper (d : Char) :
    ¬(65 ≤ (jsToLower d).toNat ∧ (jsToLower d).toNat ≤ 90) := by
  unfold jsToLower
  by_cases h : 65 ≤ d.toNat ∧ d.toNat ≤ 90
  · rw [if_pos h]
    obtain ⟨h1, h2⟩ := h
    have hv : (d.toNat + 32).isValidChar := by
      left
      omega
    rw [show (Char.ofNat (d.toNat + 32)).toNat = d.toNat + 32 from by
      have hv2 : (d.val.toBitVec.toNat + 32).isValidChar := hv
      simp [Char.ofNat, hv2, Char.toNat, Char.ofNatAux, UInt32.toNat, BitVec.toNat_ofNatLt]]
    omega
  · rw [if_neg h]
    exact h

theorem jsToLower_fixed {e : Char} (h : ¬(65 ≤ e.toNat ∧ e.toNat ≤ 90)) :
    jsToLower e = e := by
  unfold jsToLower
  rw [if_neg h]

theorem jsToLower_idem (d : Char) : jsToLower (jsToLower d) = jsToLower d :=
  jsToLower_fixed (jsToLower_toNat_not_upper d)

/-- The character list inside `slugifySpecAmended`. -/
def slugCore (s : String) : List Char :=
  trimAllHyphens (collapseHyphens (spacesToHyphens
    ((s.toList.map jsToLower).filter keepAmendedChar)))

theorem mem_trimAll {c : Char} {w : List Char} (h : c ∈ trimAllHyphens w) : c ∈ w := by
  unfold trimAllHyphens dropAllHy at h
  rw [List.mem_reverse] at h
  have h2 := (List.dropWhile_suffix _).subset h
  rw [List.mem_reverse] at h2
  exact (List.dropWhile_suffix _).subset h2

theorem mem_slugCore {c : Char} {s : String} (h : c ∈ slugCore s) :
    isSpace c = false ∧ keepAmendedChar c = true ∧ jsToLower c = c := by
  have h1 := mem_trimAll h
  have h2 := mem_collapseAux h1
  obtain ⟨hsp, hor⟩ := mem_spacesAux h2
  rcases hor with hc | hmem
  · subst hc
    exact ⟨by decide, by decide, by decide⟩
  · rw [List.mem_filter] at hmem
    obtain ⟨hmap, hkeep⟩ := hmem
    rw [List.mem_map] at hmap
    obtain ⟨d, _, hd⟩ := hmap
    refine ⟨hsp, hkeep, ?_⟩
    rw [← hd]
    exact jsToLower_idem d

theorem noHH_slugCore (s : String) : NoHH (slugCore s) :=
  noHH_trimAll ((collapseAux_spec _).1 false)

theorem trimAll_slugCore (s : String) : trimAllHyphens (slugCore s) = slugCore s := by
  unfold slugCore
  apply trimAll_eq_self
  · intro h
    exact absurd rfl (trimAll_head h)
  · intro h
    exact absurd rfl (trimAll_getLast h)

/-- The amended slugify pipeline is idempotent. -/
theorem specAmended_idem (s : String) :
    slugifySpecAmended (slugifySpecAmended s) = slugifySpecAmended s := by
  have hmem : ∀ c ∈ slugCore s,
      isSpace c = false ∧ keepAmendedChar c = true ∧ jsToLower c = c :=
    fun c hc => mem_slugCore hc
  show String.mk (trimAllHyphens (collapseHyphens (spacesToHyphens
      (((slugifySpecAmended s).toList.map jsToLower).filter keepAmendedChar)))) = _
  have htl : (slugifySpecAmended s).toList = slugCore s := rfl
  rw [htl]
  rw [show (slugCore s).map jsToLower = slugCore s from by
    conv_rhs => rw [show slugCore s = (slugCore s).map id from (List.map_id _).symm]
    exact List.map_congr_left (fun c hc => (hmem c hc).2.2)]
  rw [List.filter_eq_self.mpr (fun c hc => (hmem c hc).2.1)]
  rw [show spacesToHyphens (slugCore s) = slugCore s from
    spacesAux_eq_self (fun c hc => (hmem c hc).1) false]
  rw [show collapseHyphens (slugCore s) = slugCore s from
    (collapseAux_eq_self (noHH_slugCore s)).1]
  rw [trimAll_slugCore]
  rfl

/-- Pattern origin of a sub-facet marker. -/
inductive MarkerType where
  | comment
  | link
deriving DecidableEq, Repr

/-- A sub-facet marker: `{id, line, type}`. -/
structure SubFacetMarker where
  id : String
  line : Nat
  type : MarkerType
deriving DecidableEq, Repr

/-- Consume an exact literal prefix, returning the rest. -/
def dropLit : List Char → List Char → Option (List Char)
  | [], cs => some cs
  | _ :: _, [] => none
  | p :: ps, c :: cs => if c = p then dropLit ps cs else none

/-- Match the comment-marker regex at the current position.  The pattern is
`<!--`, optional whitespace, `@facet:`, optional whitespace, a nonempty
greedy run over `[a-z0-9-]`, optional whitespace, `-->`.  The greedy id run
first tries to keep every class character; if `-->` does not follow (after
optional whitespace) the only backtracking the pattern admits is giving back
a trailing `--` that is immediately followed by `>`. -/
def matchCommentAt (cs : List Char) : Option (String × List Char) := do
  let r1 ← dropLit "<!--".toList cs
  let r2 := r1.dropWhile JsStr.isSpace
  let r3 ← dropLit "@facet:".toList r2
  let r4 := r3.dropWhile JsStr.isSpace
  let run := r4.takeWhile JsStr.isIdChar
  let rest := r4.drop run.length
  if run.isEmpty then none
  else
    match dropLit "-->".toList (rest.dropWhile JsStr.isSpace) with
    | some r5 => some (⟨run⟩, r5)
    | none =>
      if 3 ≤ run.length ∧ run.drop (run.length - 2) = ['-', '-']
          ∧ rest.head? = some '>' then
        some (⟨run.take (run.length - 2)⟩, rest.tail)
      else none

/-- Match the empty-anchor regex `[](`, optional whitespace, `#`, a nonempty
run over `[a-z0-9-]`, optional whitespace, `)` at the current position
(no backtracking is possible: `)` is outside the id class). -/
def matchLinkAt (cs : List Char) : Option (String × List Char) := do
  let r1 ← dropLit "[](".toList cs
  let r2 := r1.dropWhile JsStr.isSpace
  let r3 ← dropLit "#".toList r2
  let run := r3.takeWhile JsStr.isIdChar
  let rest := r3.drop run.length
  if run.isEmpty then none
  else do
    let r4 ← dropLit ")".toList (rest.dropWhile JsStr.isSpace)
    some (⟨run⟩, r4)

/-- Left-to-right non-overlapping global scan (the `while exec` loops): try
the pattern at each position, emit each match's captured id and resume after
the match.  Structural recursion over a fuel that starts at the list length;
every step consumes at least one character, so the fuel never runs out. -/
def scanMarkersAux (matchAt : List Char → Option (String × List Char)) :
    Nat → List Char → List String
  | 0, _ => []
  | _, [] => []
  | fuel + 1, c :: cs =>
    match matchAt (c :: cs) with
    | some (id, rem) =>
      if rem.length < cs.length + 1 then id :: scanMarkersAux matchAt fuel rem
      else id :: scanMarkersAux matchAt fuel cs
    | none => scanMarkersAux matchAt fuel cs

/-- Global scan of one pattern over a character list. -/
def scanMarkers (matchAt : List Char → Option (String × List Char))
    (l : List Char) : List String :=
  scanMarkersAux matchAt l.length l

/-- All markers found on one line: every comment-pattern match first, then
every empty-anchor match (the order of the two `while` loops in
`parseSubFacets`). -/
def lineMarkers (line : String) (lineNumber : Nat) : List SubFacetMarker :=
  (scanMarkers matchCommentAt line.toList).map
      (fun id => ⟨id, lineNumber, MarkerType.comment⟩)
    ++ (scanMarkers matchLinkAt line.toList).map
      (fun id => ⟨id, lineNumber, MarkerType.link⟩)

/-- Embedding of `FacetParser.parseSubFacets`
(src/src/core/FacetParser.ts:32-69): scan each content line for both marker
patterns; `startLineNumber` is the 1-indexed number of the first line. -/
def parseSubFacets : List String → Nat → List SubFacetMarker
  | [], _ => []
  | l :: ls, n => lineMarkers l n ++ parseSubFacets ls (n + 1)

/-- The heading regex `^(#{1,6})\s+(.+?)\s*$`: a run of one to six `#`
followed by at least one whitespace character and at least one further
character; the captured title, after the source's `.trim()`, is the rest of
the line trimmed. -/
def headingMatch (line : String) : Option (Nat × String) :=
  let cs := line.toList
  let hashes := cs.takeWhile (fun c => c == '#')
  let rest := cs.drop hashes.length
  match rest with
  | r :: _ :: _ =>
    if JsStr.isSpace r ∧ 1 ≤ hashes.length ∧ hashes.length ≤ 6 then
      some (hashes.length, ⟨JsStr.trim rest⟩)
    else none
  | _ => none

/-- The standalone explicit-anchor regex
`^\s*\[\]\(\s*#([a-z0-9-]+)\s*\)\s*$` over a whole line. -/
def explicitIdMatch (line : String) : Option String := do
  let cs := line.toList.dropWhile JsStr.isSpace
  let r1 ← dropLit "[](".toList cs
  let r2 := r1.dropWhile JsStr.isSpace
  let r3 ← dropLit "#".toList r2
  let run := r3.takeWhile JsStr.isIdChar
  let rest := r3.drop run.length
  if run.isEmpty then none
  else do
    let r4 ← dropLit ")".toList (rest.dropWhile JsStr.isSpace)
    if (r4.dropWhile JsStr.isSpace).isEmpty then some ⟨run⟩ else none

/-- A heading found by the first parse pass. -/
structure Heading where
  level : Nat
  title : String
  explicitId : Option String
  line : Nat
deriving DecidableEq, Repr

/-- First pass of `parseContent` (lines 93-121): find headings; for each,
the first non-blank following line is inspected (once) for an explicit-id
anchor. -/
def findHeadings : Nat → List String → List Heading
  | _, [] => []
  | n, l :: ls =>
    match headingMatch l with
    | some (lvl, title) =>
      { level := lvl, title := title,
        explicitId := (ls.find? (fun x => JsStr.jsTrim x != "")).bind explicitIdMatch,
        line := n + 1 } :: findHeadings (n + 1) ls
    | none => findHeadings (n + 1) ls

/-- A parsed markdown section. -/
structure MarkdownSection where
  title : String
  slug : String
  level : Nat
  startLine : Nat
  endLine : Nat
  content : String
  explicitId : Option String
  subFacets : Option (List SubFacetMarker)
deriving DecidableEq, Repr

/-- Parsed markdown document. -/
structure ParsedMarkdown where
  file : String
  sections : List MarkdownSection
deriving DecidableEq, Repr

/-- `endLine` of a section: the line before the next heading, or the last
line of the file (`parseContent`, line 129). -/
def sectionEndLine (lines : List String) : Option Heading → Nat
  | some h2 => h2.line - 1
  | none => lines.length

/-- The marker list a section stores (`parseContent`, lines 132-144): parse
sub-facets from `lines.slice(startLine, endLine - 1)` starting at line
number `startLine + 1`; when the heading has an explicit id, markers with
that id are filtered out. -/
def sectionMarkers (lines : List String) (h : Heading) (next : Option Heading) :
    List SubFacetMarker :=
  match h.explicitId with
  | some e =>
    (parseSubFacets ((lines.drop h.line).take (sectionEndLine lines next - 1 - h.line))
        (h.line + 1)).filter (fun sf => sf.id != e)
  | none =>
    parseSubFacets ((lines.drop h.line).take (sectionEndLine lines next - 1 - h.line))
      (h.line + 1)

/-- Build one section from its heading and the next heading, if any
(`parseContent`, lines 124-157).  When the heading has an explicit id the
slug is that id (unless empty, by JavaScript `||` truthiness); the marker
list becomes `undefined` (here `none`) when empty. -/
def mkSection (lines : List String) (h : Heading) (next : Option Heading) :
    MarkdownSection :=
  let startLine := h.line
  let endLine := sectionEndLine lines next
  let contentLines := (lines.drop startLine).take (endLine - 1 - startLine)
  let sectionContent := JsStr.jsTrim (String.intercalate "\n" contentLines)
  let slug := match h.explicitId with
    | some e => if e = "" then slugify h.title else e
    | none => slugify h.title
  { title := h.title, slug := slug, level := h.level,
    startLine := startLine, endLine := endLine,
    content := sectionContent, explicitId := h.explicitId,
    subFacets := if 0 < (sectionMarkers lines h next).length
      then some (sectionMarkers lines h next) else none }

/-- Second pass of `parseContent`: one section per heading, each delimited
by the following heading. -/
def sectionsFrom (lines : List String) : List Heading → List MarkdownSection
  | [] => []
  | h :: hs => mkSection lines h hs.head? :: sectionsFrom lines hs

/-- Embedding of `FacetParser.parseContent`
(src/src/core/FacetParser.ts:86-163). -/
def parseContent (content : String) (filePath : String) : ParsedMarkdown :=
  let lines := JsStr.splitNewlines content
  { file := filePath, sections := sectionsFrom lines (findHeadings 0 lines) }

/-- The section's recorded markers as a plain list (`undefined` is `[]`). -/
def sectionSubFacetList (s : MarkdownSection) : List SubFacetMarker :=
  s.subFacets.getD []

/-- The line of `lines` with 1-indexed number `j` (empty if out of range). -/
def lineAt (lines : List String) (j : Nat) : String := lines.getD (j - 1) ""

/-- Specification-side description of marker extraction: all markers on
lines `a..b` (1-indexed, inclusive), with their absolute line numbers, in
line order. -/
def markersInRange (lines : List String) (a b : Nat) : List SubFacetMarker :=
  (List.range' a (b + 1 - a)).flatMap (fun j => lineMarkers (lineAt lines j) j)

theorem parseSubFacets_eq_flatMap :
    ∀ (ls : List String) (n : Nat),
      parseSubFacets ls n
        = (List.range' n ls.length).flatMap
            (fun j => lineMarkers (ls.getD (j - n) "") j)
  | [], _ => rfl
  | l :: ls, n => by
    show lineMarkers l n ++ parseSubFacets ls (n + 1) = _
    rw [List.length_cons, List.range'_succ, List.flatMap_cons]
    congr 1
    · simp
    · rw [parseSubFacets_eq_flatMap ls (n + 1)]
      apply List.flatMap_congr
      intro j hj
      rw [List.mem_range'_1] at hj
      have h1 : j - n = (j - (n + 1)) + 1 := by omega
      rw [h1, List.getD_cons_succ]

theorem parseSubFacets_slice (lines : List String) (a k : Nat) :
    parseSubFacets ((lines.drop a).take k) (a + 1)
      = (List.range' (a + 1) (min k (lines.length - a))).flatMap
          (fun j => lineMarkers (lineAt lines j) j) := by
  rw [parseSubFacets_eq_flatMap]
  have hlen : ((lines.drop a).take k).length = min k (lines.length - a) := by
    simp
  rw [hlen]
  apply List.flatMap_congr
  intro j hj
  rw [List.mem_range'_1] at hj
  have hjk : j - (a + 1) < min k (lines.length - a) := by omega
  have hjk2 : j - (a + 1) < k := lt_of_lt_of_le hjk (Nat.min_le_left _ _)
  have e1 : ((lines.drop a).take k).getD (j - (a + 1)) ""
      = (lines.drop a).getD (j - (a + 1)) "" := by
    simp [List.getD_eq_getElem?_getD, List.getElem?_take, hjk2]
  have e2 : (lines.drop a).getD (j - (a + 1)) ""
      = lines.getD (a + (j - (a + 1))) "" := by
    simp [List.getD_eq_getElem?_getD, List.getElem?_drop]
  have e3 : a + (j - (a + 1)) = j - 1 := by omega
  rw [e1, e2, e3]
  rfl

theorem sectionSubFacetList_mk (l : List SubFacetMarker) :
    (Option.getD (if 0 < l.length then some l else none) []) = l := by
  cases l <;> simp

theorem sectionEndLine_bounds (lines : List String) (h : Heading)
    (next : Option Heading)
    (hpos : 1 ≤ h.line) (hle : h.line ≤ lines.length)
    (hnext : ∀ h2, next = some h2 → h.line < h2.line ∧ h2.line ≤ lines.length) :
    1 ≤ sectionEndLine lines next ∧ sectionEndLine lines next ≤ lines.length := by
  cases next with
  | none => exact ⟨le_trans hpos hle, le_refl _⟩
  | some h2 =>
    obtain ⟨hlt, hle2⟩ := hnext h2 rfl
    show 1 ≤ h2.line - 1 ∧ h2.line - 1 ≤ lines.length
    omega

/-- The markers `mkSection` stores, expressed by absolute line numbers: all
markers on the lines strictly after the heading up to and *excluding* the
section's last line, minus those matching an explicit anchor id. -/
theorem mkSection_subFacets (lines : List String) (h : Heading)
    (next : Option Heading)
    (hpos : 1 ≤ h.line) (hle : h.line ≤ lines.length)
    (hnext : ∀ h2, next = some h2 → h.line < h2.line ∧ h2.line ≤ lines.length) :
    sectionSubFacetList (mkSection lines h next)
      = (markersInRange lines ((mkSection lines h next).startLine + 1)
            ((mkSection lines h next).endLine - 1)).filter
          (fun m => match (mkSection lines h next).explicitId with
            | some e => m.id != e
            | none => true) := by
  obtain ⟨hE1, hE2⟩ := sectionEndLine_bounds lines h next hpos hle hnext
  set E := sectionEndLine lines next with hEdef
  have hcore : parseSubFacets ((lines.drop h.line).take (E - 1 - h.line)) (h.line + 1)
      = markersInRange lines (h.line + 1) (E - 1) := by
    rw [parseSubFacets_slice]
    have hmin : min (E - 1 - h.line) (lines.length - h.line) = E - 1 - h.line := by
      omega
    rw [hmin]
    unfold markersInRange
    have hcount : E - 1 + 1 - (h.line + 1) = E - 1 - h.line := by omega
    rw [hcount]
  have hfields : (mkSection lines h next).startLine = h.line ∧
      (mkSection lines h next).endLine = E ∧
      (mkSection lines h next).explicitId = h.explicitId ∧
      sectionSubFacetList (mkSection lines h next) = sectionMarkers lines h next := by
    refine ⟨rfl, rfl, rfl, ?_⟩
    unfold sectionSubFacetList mkSection
    exact sectionSubFacetList_mk _
  obtain ⟨hf1, hf2, hf3, hf4⟩ := hfields
  rw [hf1, hf2, hf3, hf4]
  cases hex : h.explicitId with
  | none =>
    simp only [sectionMarkers, hex]
    rw [List.filter_true, ← hEdef]
    exact hcore
  | some e =>
    simp only [sectionMarkers, hex]
    rw [← hEdef, hcore]

theorem findHeadings_line_bounds :
    ∀ (ls : List String) (n : Nat) (h : Heading), h ∈ findHeadings n ls →
      n + 1 ≤ h.line ∧ h.line ≤ n + ls.length := by
  intro ls
  induction ls with
  | nil => intro n h hmem; simp [findHeadings] at hmem
  | cons l ls ih =>
    intro n h hmem
    simp only [findHeadings] at hmem
    cases hm : headingMatch l with
    | some v =>
      rw [hm] at hmem
      rcases List.mem_cons.mp hmem with he | hmem2
      · subst he
        simp only [List.length_cons]
        omega
      · have := ih (n + 1) h hmem2
        simp only [List.length_cons]
        omega
    | none =>
      rw [hm] at hmem
      have := ih (n + 1) h hmem
      simp only [List.length_cons]
      omega

theorem findHeadings_chain :
    ∀ (ls : List String) (n : Nat),
      List.Chain' (fun a b : Heading => a.line < b.line) (findHeadings n ls) := by
  intro ls
  induction ls with
  | nil => intro n; exact List.chain'_nil
  | cons l ls ih =>
    intro n
    simp only [findHeadings]
    cases hm : headingMatch l with
    | some v =>
      rw [List.chain'_cons']
      refine ⟨?_, ih (n + 1)⟩
      intro y hy
      have hmem := List.mem_of_mem_head? hy
      have := findHeadings_line_bounds ls (n + 1) y hmem
      show (n + 1) < y.line
      omega
    | none => exact ih (n + 1)

theorem sectionsFrom_spec (lines : List String) :
    ∀ (hs : List Heading),
      (∀ h ∈ hs, 1 ≤ h.line ∧ h.line ≤ lines.length) →
      List.Chain' (fun a b : Heading => a.line < b.line) hs →
      ∀ s ∈ sectionsFrom lines hs,
        sectionSubFacetList s
          = (markersInRange lines (s.startLine + 1) (s.endLine - 1)).filter
              (fun m => match s.explicitId with
                | some e => m.id != e
                | none => true) := by
  intro hs
  induction hs with
  | nil => intro _ _ s hmem; simp [sectionsFrom] at hmem
  | cons h hs ih =>
    intro hbounds hchain s hmem
    rw [show sectionsFrom lines (h :: hs)
        = mkSection lines h hs.head? :: sectionsFrom lines hs from rfl] at hmem
    rcases List.mem_cons.mp hmem with he | hmem2
    · subst he
      obtain ⟨hpos, hle⟩ := hbounds h (List.mem_cons_self _ _)
      refine mkSection_subFacets lines h hs.head? hpos hle ?_
      intro h2 hh2
      rw [List.chain'_cons'] at hchain
      constructor
      · exact hchain.1 h2 (by rw [hh2]; rfl)
      · exact (hbounds h2 (List.mem_cons_of_mem h
          (List.mem_of_mem_head? (by rw [hh2]; rfl)))).2
    · exact ih (fun h' hm => hbounds h' (List.mem_cons_of_mem h hm))
        (List.Chain'.tail hchain) s hmem2

end FacetParser

namespace TestScanner

open JsStr
open FacetParser (dropLit)

/-- `defaultConfig.facetTypes` (src/unnamed/part_019, `defaultConfig`). -/
def defaultFacetTypes : List String :=
  ["product", "dx", "technical", "compliance", "business", "ux"]

/-- Count occurrences of a character (`(line.match(/\{/g) || []).length`). -/
def countChar (c : Char) (s : String) : Nat := s.toList.count c

/-- One of the three JavaScript quote characters `'`, `"`, `` ` ``
(by code point: 39, 34, 96). -/
def isQuote (c : Char) : Bool := c.toNat == 39 || c.toNat == 34 || c.toNat == 96

/-- Global scan of the string-literal pattern: an opening quote, a nonempty
run free of all three quote characters, and the same closing quote
(`facetIdsPattern`).  A failed start position advances by one character.
Fuel starts at the list length; every step consumes at least one
character. -/
def scanLitsAux : Nat → List Char → List String
  | 0, _ => []
  | _, [] => []
  | fuel + 1, c :: cs =>
    if isQuote c then
      let run := cs.takeWhile (fun d => !isQuote d)
      let rest := cs.drop run.length
      if run.isEmpty then scanLitsAux fuel cs
      else
        match rest with
        | d :: rest2 =>
          if d = c then (⟨run⟩ : String) :: scanLitsAux fuel rest2
          else scanLitsAux fuel cs
        | [] => scanLitsAux fuel cs
    else scanLitsAux fuel cs

/-- The string literals occurring in an argument list, in order. -/
def stringLits (s : String) : List String := scanLitsAux s.toList.length s.toList

/-- First character class `[A-Z_]` of `facetsConstPattern`. -/
def isConstHead (c : Char) : Bool := c.isUpper || c == '_'

/-- Continuation class `[A-Z0-9_]` of `facetsConstPattern`. -/
def isConstChar (c : Char) : Bool := c.isUpper || c.isDigit || c == '_'

/-- Global scan of `Facets\.([A-Z_][A-Z0-9_]*)`. -/
def scanConstsAux : Nat → List Char → List String
  | 0, _ => []
  | _, [] => []
  | fuel + 1, c :: cs =>
    match dropLit "Facets.".toList (c :: cs) with
    | some r1 =>
      match r1 with
      | d :: _ =>
        if isConstHead d then
          let run := r1.takeWhile isConstChar
          (⟨run⟩ : String) :: scanConstsAux fuel (r1.drop run.length)
        else scanConstsAux fuel cs
      | [] => scanConstsAux fuel cs
    | none => scanConstsAux fuel cs

/-- The `Facets.CONSTANT` references occurring in an argument list. -/
def facetsConsts (s : String) : List String :=
  scanConstsAux s.toList.length s.toList

/-- Embedding of `TestScanner.convertConstantToFacetId`
(src/unnamed/part_020:24-68): lowercase the constant name, split on `_`;
a `features`-prefixed name whose type token appears after position 1 turns
into `path/type:section`; otherwise the first part is the type and the rest
joins with hyphens (the legacy branch and the fallback produce the same
string). -/
def convertConstantToFacetId (knownTypes : List String) (constName : String) :
    String :=
  let parts := splitChar '_' ⟨constName.toList.map jsToLower⟩
  let legacyOrFallback :=
    match knownTypes.find? (fun t => parts.headD "" == t) with
    | some t => t ++ ":" ++ String.intercalate "-" (parts.drop 1)
    | none => parts.headD "" ++ ":" ++ String.intercalate "-" (parts.drop 1)
  if parts.headD "" == "features" ∧ 2 < parts.length then
    match (List.range' 1 (parts.length - 1)).find?
        (fun i => knownTypes.contains (parts.getD i "")) with
    | some typeIndex =>
      if 1 < typeIndex then
        String.intercalate "/" (parts.take typeIndex) ++ "/"
          ++ parts.getD typeIndex "" ++ ":"
          ++ String.intercalate "-" (parts.drop (typeIndex + 1))
      else legacyOrFallback
    | none => legacyOrFallback
  else legacyOrFallback

/-- Ids pushed for one matched argument list: the string literals, then the
converted `Facets.` constants (scanContent lines 188-201 and 257-270). -/
def extractIds (knownTypes : List String) (args : String) : List String :=
  stringLits args ++ (facetsConsts args).map (convertConstantToFacetId knownTypes)

/-- The standalone-call regex `^\s*facet\s*\(\s*([^)]+)\s*\)\s*;?\s*$`
(`facetCallPattern`).  The captured group greedily keeps everything up to
the first `)`; when only whitespace separates `(` and `)` the group
backtracks to a single space. -/
def matchFacetCall (line : String) : Option String := do
  let cs := line.toList.dropWhile isSpace
  let r1 ← dropLit "facet".toList cs
  let r2 := r1.dropWhile isSpace
  let r3 ← dropLit "(".toList r2
  let between := r3.takeWhile (fun c => !(c == ')'))
  let rest := r3.drop between.length
  if between.isEmpty then none
  else do
    let r4 ← dropLit ")".toList rest
    let r5 := r4.dropWhile isSpace
    let r6 := match r5 with
      | ';' :: tl => tl
      | _ => r5
    if (r6.dropWhile isSpace).isEmpty then
      let grp := between.dropWhile isSpace
      some (if grp.isEmpty then " " else (⟨grp⟩ : String))
    else none

/-- Lazy group `(['"`])(.+?)\1` continuation: starting after the opening
quote `q`, find the shortest nonempty prefix followed by `q` whose suffix
satisfies `tail`; on rejection the lazy group grows (it may swallow
quotes). -/
def lazyTitleAux (q : Char) (tail : List Char → Bool) :
    List Char → List Char → Option String
  | _, [] => none
  | acc, c :: cs =>
    if c = q && !acc.isEmpty && tail cs then some ⟨acc.reverse⟩
    else lazyTitleAux q tail (c :: acc) cs

/-- After the backreference of `testSimplePattern`: `\s*,`. -/
def tailComma (cs : List Char) : Bool :=
  match cs.dropWhile isSpace with
  | ',' :: _ => true
  | _ => false

/-- After the backreference of `testPattern`: `\s*,\s*\{`. -/
def tailCommaBrace (cs : List Char) : Bool :=
  match cs.dropWhile isSpace with
  | ',' :: rest =>
    match rest.dropWhile isSpace with
    | '{' :: _ => true
    | _ => false
  | _ => false

/-- `(?:test|it)\s*\(\s*(['"`])(.+?)\1` followed by `tail`, anchored at the
head of `cs`. -/
def matchTestAt (tail : List Char → Bool) (cs : List Char) : Option String := do
  let r1 ← match dropLit "test".toList cs with
    | some r => some r
    | none => dropLit "it".toList cs
  let r2 := r1.dropWhile isSpace
  let r3 ← dropLit "(".toList r2
  let r4 := r3.dropWhile isSpace
  match r4 with
  | q :: rest => if isQuote q then lazyTitleAux q tail [] rest else none
  | [] => none

/-- `describe\s*\(\s*(['"`])(.+?)\1` anchored at the head of `cs`. -/
def matchDescribeAt (cs : List Char) : Option String := do
  let r1 ← dropLit "describe".toList cs
  let r2 := r1.dropWhile isSpace
  let r3 ← dropLit "(".toList r2
  let r4 := r3.dropWhile isSpace
  match r4 with
  | q :: rest => if isQuote q then lazyTitleAux q (fun _ => true) [] rest else none
  | [] => none

/-- The Playwright pattern `annotation\s*:\s*facet\s*\(\s*([^)]+)\s*\)`
anchored at the head of `cs`. -/
def matchAnnotAt (cs : List Char) : Option String := do
  let r1 ← dropLit "annotation".toList cs
  let r2 := r1.dropWhile isSpace
  let r3 ← dropLit ":".toList r2
  let r4 := r3.dropWhile isSpace
  let r5 ← dropLit "facet".toList r4
  let r6 := r5.dropWhile isSpace
  let r7 ← dropLit "(".toList r6
  let between := r7.takeWhile (fun c => !(c == ')'))
  let rest := r7.drop between.length
  if between.isEmpty then none
  else do
    let _ ← dropLit ")".toList rest
    let grp := between.dropWhile isSpace
    some (if grp.isEmpty then " " else (⟨grp⟩ : String))

/-- Unanchored first-match search: try the pattern at each position from the
left (regex `exec` semantics). -/
def searchAux (tryAt : List Char → Option String) :
    Nat → List Char → Option String
  | 0, _ => none
  | _, [] => none
  | fuel + 1, c :: cs =>
    match tryAt (c :: cs) with
    | some t => some t
    | none => searchAux tryAt fuel cs

/-- First match of an unanchored pattern in a string. -/
def search (tryAt : List Char → Option String) (s : String) : Option String :=
  searchAux tryAt s.toList.length s.toList

/-- `describePattern` applied to a line (first match's title). -/
def describeMatch (line : String) : Option String := search matchDescribeAt line

/-- `testPattern` (with `,{`) applied to a line. -/
def testMatchFull (line : String) : Option String :=
  search (matchTestAt tailCommaBrace) line

/-- `testSimplePattern` applied to a line. -/
def testMatchSimple (line : String) : Option String :=
  search (matchTestAt tailComma) line

/-- The test-definition match of scanContent lines 229-238: the annotated
pattern first, the simple one second. -/
def testMatchOf (line : String) : Option String :=
  match testMatchFull line with
  | some t => some t
  | none => testMatchSimple line

/-- `facetAnnotationPattern` applied to the ten-line lookahead block. -/
def annotMatch (block : String) : Option String := search matchAnnotAt block

/-- `commentFacetPattern` (`^\s*\/\/\s*@facet\s+(.+)$`) plus the
comma-split/trim/filter of scanContent lines 160-168.  The group is the
line's tail after `@facet` with its leading whitespace; splitting the whole
tail instead gives the same ids since each fragment is trimmed. -/
def commentFacetIds (line : String) : Option (List String) := do
  let cs := line.toList.dropWhile isSpace
  let r1 ← dropLit "//".toList cs
  let r2 := r1.dropWhile isSpace
  let r3 ← dropLit "@facet".toList r2
  match r3 with
  | c1 :: _ :: _ =>
    if isSpace c1 then
      some (((splitChar ',' (⟨r3⟩ : String)).map (fun f => jsTrim f)).filter
        (fun f => f != ""))
    else none
  | _ => none

/-- `[...new Set(l)]`: first-occurrence-order deduplication. -/
def jsDedupAux (seen : List String) : List String → List String
  | [] => []
  | x :: xs =>
    if seen.contains x then jsDedupAux seen xs
    else x :: jsDedupAux (x :: seen) xs

/-- JavaScript `[...new Set(l)]`. -/
def jsDedup (l : List String) : List String := jsDedupAux [] l

/-- A test link `{file, title, fullTitle, facetIds, line}`. -/
structure TestLink where
  file : String
  title : String
  fullTitle : String
  facetIds : List String
  line : Nat
deriving DecidableEq, Repr

/-- The `currentTest` tracker of scanContent. -/
structure CurTest where
  title : String
  fullTitle : String
  line : Nat
  startBrace : Int
deriving DecidableEq, Repr

/-- The explicit per-file scan state of `scanContent`. -/
structure ScanSt where
  braceDepth : Int
  describeStack : List String
  describeDepths : List Int
  pendingIds : List String
  pendingLine : Int
  currentTest : Option CurTest
  currentIds : List String
  links : List TestLink
deriving DecidableEq, Repr

/-- Initial scan state. -/
def initSt : ScanSt :=
  { braceDepth := 0, describeStack := [], describeDepths := [],
    pendingIds := [], pendingLine := -1, currentTest := none,
    currentIds := [], links := [] }

/-- Pop describe blocks whose recorded depth is at or above the running
depth (scanContent lines 207-211).  The stacks are kept head-innermost. -/
def popDescribes (d : Int) : List String → List Int → List String × List Int
  | t :: ts, x :: xs =>
    if d ≤ x then popDescribes d ts xs else (t :: ts, x :: xs)
  | ts, xs => (ts, xs)

/-- Build a `currentTest` tracker record. -/
def mkCur (title fullTitle : String) (n : Nat) (sb : Int) : CurTest :=
  { title := title, fullTitle := fullTitle, line := n, startBrace := sb }

/-- Build a `TestLink` record. -/
def mkLink (fileLabel title fullTitle : String) (ids : List String) (n : Nat) :
    TestLink :=
  { file := fileLabel, title := title, fullTitle := fullTitle,
    facetIds := ids, line := n }

/-- The ids one line contributes to an open test body (the facet-call check
of scanContent lines 183-203): the matched standalone call's string
literals, then its converted constants. -/
def lineCollectIds (knownTypes : List String) (l : String) : List String :=
  match matchFacetCall l with
  | some args => extractIds knownTypes args
  | none => []

/-- One line of `TestScanner.scanContent` (src/unnamed/part_020:156-302):
comment-annotation check (which skips the rest of the line), describe
tracking, brace counting, in-body facet-call collection (at the depth
before this line's braces), depth update, describe popping, test-exit
flushing (deduplicated), test-definition detection with pending-comment and
ten-line Playwright lookahead, and stale-pending clearing.  `rest` is the
lines after the current one, `n` the 1-indexed line number. -/
def scanLine (knownTypes : List String) (fileLabel : String) (st : ScanSt)
    (l : String) (rest : List String) (n : Nat) : ScanSt :=
  match commentFacetIds l with
  | some ids => { st with pendingIds := ids, pendingLine := (n : Int) }
  | none =>
    let st1 := match describeMatch l with
      | some t =>
        { st with describeStack := t :: st.describeStack,
                  describeDepths := st.braceDepth :: st.describeDepths }
      | none => st
    let o := countChar '{' l
    let z := countChar '}' l
    let st2 := match st1.currentTest with
      | some ct =>
        if ct.startBrace < st1.braceDepth then
          match matchFacetCall l with
          | some args =>
            { st1 with currentIds := st1.currentIds ++ extractIds knownTypes args }
          | none => st1
        else st1
      | none => st1
    let d := st2.braceDepth + (o : Int) - (z : Int)
    let (stk, dps) := popDescribes d st2.describeStack st2.describeDepths
    let st3 := { st2 with braceDepth := d, describeStack := stk,
                          describeDepths := dps }
    let st4 := match st3.currentTest with
      | some ct =>
        if d ≤ ct.startBrace then
          { st3 with
            links := st3.links ++ (if st3.currentIds.isEmpty then []
              else [mkLink fileLabel ct.title ct.fullTitle
                      (jsDedup st3.currentIds) ct.line]),
            currentTest := none, currentIds := [] }
        else st3
      | none => st3
    let st5 := match testMatchOf l with
      | some title =>
        let fullTitle :=
          String.intercalate " > " (st4.describeStack.reverse ++ [title])
        if st4.pendingIds.isEmpty = false ∧ (n : Int) - st4.pendingLine ≤ 3 then
          { st4 with
            links := st4.links ++ [mkLink fileLabel title fullTitle
              st4.pendingIds n],
            pendingIds := [], pendingLine := -1 }
        else
          let block := String.intercalate "\n" ((l :: rest).take 10)
          match annotMatch block with
          | some args =>
            let fids := extractIds knownTypes args
            if fids.isEmpty then
              { st4 with currentTest := some (mkCur title fullTitle n
                  (st4.braceDepth - (o : Int))), currentIds := [] }
            else
              { st4 with links := st4.links
                  ++ [mkLink fileLabel title fullTitle fids n] }
          | none =>
            { st4 with currentTest := some (mkCur title fullTitle n
                (st4.braceDepth - (o : Int))), currentIds := [] }
      | none => st4
    if st5.pendingIds.isEmpty = false ∧ 3 < (n : Int) - st5.pendingLine then
      { st5 with pendingIds := [], pendingLine := -1 }
    else st5

/-- The scan loop plus the end-of-file flush of a still-open test
(scanContent lines 304-313). -/
def scanLinesAux (knownTypes : List String) (fileLabel : String) :
    ScanSt → Nat → List String → List TestLink
  | st, _, [] =>
    st.links ++ (match st.currentTest with
      | some ct =>
        if st.currentIds.isEmpty then []
        else [mkLink fileLabel ct.title ct.fullTitle
                (jsDedup st.currentIds) ct.line]
      | none => [])
  | st, n, l :: rest =>
    scanLinesAux knownTypes fileLabel
      (scanLine knownTypes fileLabel st l rest n) (n + 1) rest

/-- Embedding of `TestScanner.scanContent` (src/unnamed/part_020:116-316).
`fileLabel` stands for `relative(cwd, filePath)`; path arithmetic is
outside the model. -/
def scanContent (knownTypes : List String) (content : String)
    (fileLabel : String) : List TestLink :=
  scanLinesAux knownTypes fileLabel initSt 1 (JsStr.splitNewlines content)

/-- The scan state right after a recognized test declaration opened a body
at depth 1 with `acc` ids collected so far. -/
def openSt (t : String) (acc : List String) : ScanSt :=
  { braceDepth := 1, describeStack := [], describeDepths := [],
    pendingIds := [], pendingLine := -1,
    currentTest := some (mkCur t t 1 0), currentIds := acc, links := [] }

theorem scanLine_decl (knownTypes : List String) (fileLabel : String)
    (decl : String) (rest : List String) (t : String)
    (hdc : commentFacetIds decl = none)
    (hdd : describeMatch decl = none)
    (hdo : countChar '{' decl = 1) (hdz : countChar '}' decl = 0)
    (hdt : testMatchOf decl = some t)
    (hda : annotMatch (String.intercalate "\n" ((decl :: rest).take 10)) = none) :
    scanLine knownTypes fileLabel initSt decl rest 1 = openSt t [] := by
  unfold scanLine
  simp only [hdc, hdd, hdo, hdz, hdt, hda]
  rfl

theorem scanLine_body (knownTypes : List String) (fileLabel : String)
    (l : String) (rest : List String) (n : Nat) (t : String) (acc : List String)
    (hc : commentFacetIds l = none) (hd : describeMatch l = none)
    (hb : countChar '{' l = countChar '}' l)
    (ht : testMatchOf l = none) :
    scanLine knownTypes fileLabel (openSt t acc) l rest n
      = openSt t (acc ++ lineCollectIds knownTypes l) := by
  unfold scanLine lineCollectIds
  have harith : (1 : Int) + (countChar '{' l : Int) - (countChar '}' l : Int) = 1 := by
    rw [hb]; omega
  cases hm : matchFacetCall l with
  | some args =>
    simp only [hc, hd, ht, hm, openSt, mkCur]
    norm_num [popDescribes, harith]
  | none =>
    simp only [hc, hd, ht, hm, openSt, mkCur]
    norm_num [popDescribes, harith]

theorem scanLine_close (knownTypes : List String) (fileLabel : String)
    (close : String) (rest : List String) (n : Nat) (t : String)
    (acc : List String)
    (hcc : commentFacetIds close = none) (hcd : describeMatch close = none)
    (hco : countChar '{' close = 0) (hcz : countChar '}' close = 1)
    (hcf : matchFacetCall close = none) (hct : testMatchOf close = none)
    (hacc : acc ≠ []) :
    scanLine knownTypes fileLabel (openSt t acc) close rest n
      = { braceDepth := 0, describeStack := [], describeDepths := [],
          pendingIds := [], pendingLine := -1, currentTest := none,
          currentIds := [],
          links := [mkLink fileLabel t t (jsDedup acc) 1] } := by
  unfold scanLine
  have hne : acc.isEmpty = false := by
    cases acc with
    | nil => exact absurd rfl hacc
    | cons a as => rfl
  simp only [hcc, hcd, hco, hcz, hcf, hct, openSt, mkCur]
  norm_num [popDescribes, hne]

theorem scanLinesAux_body (knownTypes : List String) (fileLabel : String)
    (t : String) :
    ∀ (body : List String) (tail : List String) (n : Nat) (acc : List String),
      (∀ l ∈ body, commentFacetIds l = none) →
      (∀ l ∈ body, describeMatch l = none) →
      (∀ l ∈ body, countChar '{' l = countChar '}' l) →
      (∀ l ∈ body, testMatchOf l = none) →
      scanLinesAux knownTypes fileLabel (openSt t acc) n (body ++ tail)
        = scanLinesAux knownTypes fileLabel
            (openSt t (acc ++ body.flatMap (lineCollectIds knownTypes)))
            (n + body.length) tail := by
  intro body
  induction body with
  | nil => intro tail n acc _ _ _ _; simp
  | cons l body ih =>
    intro tail n acc hc hd hb ht
    rw [List.cons_append]
    show scanLinesAux knownTypes fileLabel
        (scanLine knownTypes fileLabel (openSt t acc) l (body ++ tail) n)
        (n + 1) (body ++ tail) = _
    rw [scanLine_body knownTypes fileLabel l (body ++ tail) n t acc
      (hc l (List.mem_cons_self _ _)) (hd l (List.mem_cons_self _ _))
      (hb l (List.mem_cons_self _ _)) (ht l (List.mem_cons_self _ _))]
    rw [ih tail (n + 1) (acc ++ lineCollectIds knownTypes l)
      (fun x hx => hc x (List.mem_cons_of_mem l hx))
      (fun x hx => hd x (List.mem_cons_of_mem l hx))
      (fun x hx => hb x (List.mem_cons_of_mem l hx))
      (fun x hx => ht x (List.mem_cons_of_mem l hx))]
    rw [List.flatMap_cons, List.append_assoc]
    congr 1
    simp [List.length_cons]
    omega

/-- General in-body scenario: a test declaration line, body lines that only
contribute standalone `facet(...)` calls, and a closing line.  Exactly one
Test Link is emitted, at the close of the body, whose ids are the collected
ids deduplicated in first-occurrence order. -/
theorem scanContent_inBody (knownTypes : List String)
    (content fileLabel decl close t : String) (body : List String)
    (hsplit : JsStr.splitNewlines content = decl :: body ++ [close])
    (hdc : commentFacetIds decl = none)
    (hdd : describeMatch decl = none)
    (hdo : countChar '{' decl = 1) (hdz : countChar '}' decl = 0)
    (hdt : testMatchOf decl = some t)
    (hda : annotMatch (String.intercalate "\n"
        ((decl :: body ++ [close]).take 10)) = none)
    (hbc : ∀ l ∈ body, commentFacetIds l = none)
    (hbd : ∀ l ∈ body, describeMatch l = none)
    (hbb : ∀ l ∈ body, countChar '{' l = countChar '}' l)
    (hbt : ∀ l ∈ body, testMatchOf l = none)
    (hcc : commentFacetIds close = none)
    (hcd : describeMatch close = none)
    (hco : countChar '{' close = 0) (hcz : countChar '}' close = 1)
    (hcf : matchFacetCall close = none)
    (hct : testMatchOf close = none)
    (hne : body.flatMap (lineCollectIds knownTypes) ≠ []) :
    scanContent knownTypes content fileLabel
      = [mkLink fileLabel t t
          (jsDedup (body.flatMap (lineCollectIds knownTypes))) 1] := by
  unfold scanContent
  rw [hsplit]
  show scanLinesAux knownTypes fileLabel
      (scanLine knownTypes fileLabel initSt decl (body ++ [close]) 1)
      2 (body ++ [close]) = _
  rw [scanLine_decl knownTypes fileLabel decl (body ++ [close]) t hdc hdd hdo hdz
    hdt (by rw [← List.cons_append]; exact hda)]
  rw [scanLinesAux_body knownTypes fileLabel t body [close] 2 [] hbc hbd hbb hbt]
  rw [List.nil_append]
  show scanLinesAux knownTypes fileLabel
      (scanLine knownTypes fileLabel
        (openSt t (body.flatMap (lineCollectIds knownTypes))) close [] (2 + body.length))
      (2 + body.length + 1) [] = _
  rw [scanLine_close knownTypes fileLabel close [] (2 + body.length) t
    (body.flatMap (lineCollectIds knownTypes)) hcc hcd hco hcz hcf hct hne]
  rfl

end TestScanner

/-- A validated facet (requirement), as stored in a structure file
(src/unnamed/part_019, `Facet`).  `source.file`/`source.section`/
`source.line` are flattened into `sourceFile`/`sourceSection`/
`sourceLine`. -/
structure Facet where
  id : String
  sourceFile : String
  sourceSection : String
  sourceLine : Option Nat
  type : String
  title : Option String
  description : Option String
  parentId : Option String
  isSubFacet : Bool
deriving DecidableEq, Repr

/-- A structure document `{feature, facets}`. -/
structure FacetStructure where
  feature : String
  facets : List Facet
deriving DecidableEq, Repr

/-- JavaScript truthiness of an optional string (`undefined` and `""` are
falsy). -/
def truthy : Option String → Bool
  | none => false
  | some s => !(s == "")

namespace StructureReader

/-- A facet as parsed from JSON, every field possibly `undefined`. -/
structure LooseFacet where
  id : Option String
  sourceFile : Option String
  sourceSection : Option String
  sourceLine : Option Nat
  type : Option String
  title : Option String
  description : Option String
  parentId : Option String
  isSubFacet : Option Bool
deriving DecidableEq, Repr

/-- A structure document as parsed from JSON: `feature` possibly missing or
empty, `facets` possibly not an array (`none`). -/
structure LooseStructure where
  feature : Option String
  facets : Option (List LooseFacet)
deriving DecidableEq, Repr

/-- The outcome of `existsSync` + `readFileSync` + `JSON.parse` for one
structure file path. -/
inductive FileContent where
  | missing
  | badJson
  | json (s : LooseStructure)
deriving DecidableEq, Repr

/-- Error kinds thrown by `StructureReader.readStructure`. -/
inductive ReadErrKind where
  | notFound
  | invalidJson
  | missingFeature
  | missingFacets
  | facetMissingId
  | duplicateFacetId (id : String)
  | missingSourceFile (id : String)
  | missingSourceSection (id : String)
  | missingType (id : String)
deriving DecidableEq, Repr

/-- A thrown error; every message of `readStructure` carries the offending
file's path. -/
structure ReadErr where
  path : String
  kind : ReadErrKind
deriving DecidableEq, Repr

/-- The per-facet loop of `StructureReader.validateStructure`
(src/src/core/CoverageCalculator.ts:334-367), in source order: `id`
present, `id` not already seen, `source.file`, `source.section`, `type`
present. -/
def validateFacets (path : String) : List String → List LooseFacet →
    Except ReadErr Unit
  | _, [] => Except.ok ()
  | seen, f :: fs =>
    if truthy f.id = false then
      Except.error ⟨path, ReadErrKind.facetMissingId⟩
    else if seen.contains (f.id.getD "") then
      Except.error ⟨path, ReadErrKind.duplicateFacetId (f.id.getD "")⟩
    else if truthy f.sourceFile = false then
      Except.error ⟨path, ReadErrKind.missingSourceFile (f.id.getD "")⟩
    else if truthy f.sourceSection = false then
      Except.error ⟨path, ReadErrKind.missingSourceSection (f.id.getD "")⟩
    else if truthy f.type = false then
      Except.error ⟨path, ReadErrKind.missingType (f.id.getD "")⟩
    else validateFacets path (f.id.getD "" :: seen) fs

/-- A validated loose facet as the rest of the system consumes it. -/
def toFacet (f : LooseFacet) : Facet :=
  { id := f.id.getD "", sourceFile := f.sourceFile.getD "",
    sourceSection := f.sourceSection.getD "", sourceLine := f.sourceLine,
    type := f.type.getD "", title := f.title, description := f.description,
    parentId := f.parentId, isSubFacet := f.isSubFacet.getD false }

/-- Embedding of `StructureReader.readStructure`
(src/src/core/CoverageCalculator.ts:254-282): throw on a missing file or
invalid JSON, validate the parsed object, and return it (the map over
facets at lines 272-279 copies `source.file` unchanged). -/
def readStructure (path : String) (c : FileContent) :
    Except ReadErr FacetStructure :=
  match c with
  | FileContent.missing => Except.error ⟨path, ReadErrKind.notFound⟩
  | FileContent.badJson => Except.error ⟨path, ReadErrKind.invalidJson⟩
  | FileContent.json s =>
    if truthy s.feature = false then
      Except.error ⟨path, ReadErrKind.missingFeature⟩
    else
      match s.facets with
      | none => Except.error ⟨path, ReadErrKind.missingFacets⟩
      | some fs =>
        match validateFacets path [] fs with
        | Except.error e => Except.error e
        | Except.ok () =>
          Except.ok { feature := s.feature.getD "", facets := fs.map toFacet }

/-- Whether an `Except` is a thrown error. -/
def isError {e a : Type} : Except e a → Bool
  | Except.error _ => true
  | Except.ok _ => false

/-- JavaScript `Map.set`: overwrite in place or append. -/
def jsMapSet {β : Type} (m : List (String × β)) (k : String) (v : β) :
    List (String × β) :=
  match m with
  | [] => [(k, v)]
  | (k0, v0) :: rest =>
    if k0 = k then (k0, v) :: rest else (k0, v0) :: jsMapSet rest k v

/-- JavaScript `Map.get`. -/
def jsMapGet {β : Type} (m : List (String × β)) (k : String) : Option β :=
  match m.find? (fun p => p.1 == k) with
  | some p => some p.2
  | none => none

/-- JavaScript `Map.has`. -/
def jsMapHas {β : Type} (m : List (String × β)) (k : String) : Bool :=
  (jsMapGet m k).isSome

/-- The loop of `readAllStructures` with its accumulated Map. -/
def readAllAux (acc : List (String × FacetStructure)) :
    List (String × FileContent) →
      Except ReadErr (List (String × FacetStructure))
  | [] => Except.ok acc
  | (p, c) :: rest =>
    match readStructure p c with
    | Except.error e => Except.error e
    | Except.ok s => readAllAux (jsMapSet acc p s) rest

/-- Embedding of `StructureReader.readAllStructures`
(src/src/core/CoverageCalculator.ts:287-297): read every discovered file in
order into a Map keyed by path; the first thrown error aborts the whole
operation. -/
def readAllStructures (files : List (String × FileContent)) :
    Except ReadErr (List (String × FacetStructure)) :=
  readAllAux [] files

/-- The claim C5's notion of a malformed structure file: nonexistent, not
valid JSON, or missing a required `feature`/`facets`/`id`/`source.file`/
`source.section`/`type` field. -/
def Malformed : FileContent → Prop
  | FileContent.missing => True
  | FileContent.badJson => True
  | FileContent.json s =>
    truthy s.feature = false ∨ s.facets = none ∨
      ∃ fs, s.facets = some fs ∧ ∃ f ∈ fs,
        truthy f.id = false ∨ truthy f.sourceFile = false ∨
          truthy f.sourceSection = false ∨ truthy f.type = false

end StructureReader

namespace Validator

open StructureReader (jsMapSet jsMapGet)
open JsStr

/-- Validation finding kinds (the `type` strings of `ValidationError`). -/
inductive VKind where
  | duplicateId
  | missingSource
  | missingSection
  | invalidFacetId
  | orphanSubfacet
  | orphanTest
deriving DecidableEq, Repr

/-- A validation finding `{type, message, file?, line?, facetId?}`. -/
structure ValidationError where
  kind : VKind
  message : String
  file : Option String
  line : Option Nat
  facetId : Option String
deriving DecidableEq, Repr

/-- `{valid, errors, warnings}`. -/
structure ValidationResult where
  valid : Bool
  errors : List ValidationError
  warnings : List ValidationError
deriving DecidableEq, Repr

/-- A finding attributed to a file and a facet id, without a line. -/
def mkErr (k : VKind) (msg file fid : String) : ValidationError :=
  { kind := k, message := msg, file := some file, line := none,
    facetId := some fid }

/-- The two validation switches the validator consults. -/
structure VConfig where
  requireSourceExists : Bool
  requireSectionExists : Bool
deriving DecidableEq, Repr

/-- Character class `[a-zA-Z0-9_-]` (the section/sub-id part of a facet
id). -/
def isIdBodyChar (c : Char) : Bool :=
  c.isAlpha || c.isDigit || c == '_' || c == '-'

/-- Character class `[a-zA-Z0-9/_-]` (the path/type part of a facet id). -/
def isIdPathChar (c : Char) : Bool := isIdBodyChar c || c == '/'

/-- Embedding of `Validator.isValidFacetId` (src/unnamed/part_021:198-202):
the anchored regex accepts a nonempty `[a-zA-Z0-9/_-]+` part, a colon, a
nonempty `[a-zA-Z0-9_-]+` section, and at most one `/sub-id` suffix. -/
def isValidFacetId (id : String) : Bool :=
  let cs := id.toList
  let before := cs.takeWhile (fun c => !(c == ':'))
  let rest := cs.drop before.length
  match rest with
  | ':' :: after =>
    (!before.isEmpty && before.all isIdPathChar) &&
      (let a := after.takeWhile (fun c => !(c == '/'))
       let r2 := after.drop a.length
       match r2 with
       | [] => !a.isEmpty && a.all isIdBodyChar
       | _ :: b =>
         !a.isEmpty && a.all isIdBodyChar && !b.isEmpty && b.all isIdBodyChar)
  | _ => false

/-- The findings of the per-facet loop body of `Validator.validateStructure`
(src/unnamed/part_021:131-182), as `(errors, warnings)`.  A missing source
file adds its error and `continue`s, skipping the section, id-format and
orphan checks for that facet.  `sourceOk f` stands for
`existsSync(resolve(featureDir, f.source.file))` and `sectionOk f` for
`facetParser.sectionExists(sourcePath, f.source.section)`; path resolution
is outside the model. -/
def facetFindings (cfg : VConfig) (sourceOk sectionOk : Facet → Bool)
    (structureFile : String) (inStructure : List String) (f : Facet) :
    List ValidationError × List ValidationError :=
  if cfg.requireSourceExists ∧ sourceOk f = false then
    ([mkErr VKind.missingSource ("Source file not found: " ++ f.sourceFile)
        structureFile f.id], [])
  else
    let sectionErrs :=
      if cfg.requireSourceExists ∧ cfg.requireSectionExists
          ∧ f.isSubFacet = false ∧ sectionOk f = false then
        [mkErr VKind.missingSection
          ("Section '" ++ f.sourceSection ++ "' not found in " ++ f.sourceFile)
          structureFile f.id]
      else []
    let warns :=
      if isValidFacetId f.id = false then
        [mkErr VKind.invalidFacetId
          ("Facet ID '" ++ f.id ++ "' uses non-standard format")
          structureFile f.id]
      else []
    let orphanErrs :=
      if f.isSubFacet = true ∧ truthy f.parentId = true
          ∧ inStructure.contains (f.parentId.getD "") = false then
        [mkErr VKind.orphanSubfacet
          ("Sub-facet '" ++ f.id ++ "' references non-existent parent '"
            ++ f.parentId.getD "" ++ "'")
          structureFile f.id]
      else []
    (sectionErrs ++ orphanErrs, warns)

/-- Embedding of `Validator.validateStructure`
(src/unnamed/part_021:117-189). -/
def validateStructure (cfg : VConfig) (sourceOk sectionOk : Facet → Bool)
    (s : FacetStructure) (structureFile : String) : ValidationResult :=
  let inStructure := s.facets.map (fun f => f.id)
  let pairs := s.facets.map
    (facetFindings cfg sourceOk sectionOk structureFile inStructure)
  let errors := (pairs.map Prod.fst).flatten
  let warnings := (pairs.map Prod.snd).flatten
  { valid := errors.isEmpty, errors := errors, warnings := warnings }

/-- The per-structure half of the duplicate-id pass
(src/unnamed/part_021:50-61): flag each facet whose id was already seen,
then record it as seen. -/
def dupPassFacets (structureFile : String) :
    List Facet → List String → List ValidationError × List String
  | [], seen => ([], seen)
  | f :: fs, seen =>
    let e :=
      if seen.contains f.id then
        [mkErr VKind.duplicateId
          ("Duplicate facet ID '" ++ f.id ++ "' found in multiple structure files")
          structureFile f.id]
      else []
    let r := dupPassFacets structureFile fs (f.id :: seen)
    (e ++ r.1, r.2)

/-- The duplicate-id pass over all structures (lines 49-62). -/
def dupPass : List (String × FacetStructure) → List String →
    List ValidationError × List String
  | [], seen => ([], seen)
  | (file, s) :: rest, seen =>
    let r1 := dupPassFacets file s.facets seen
    let r2 := dupPass rest r1.2
    (r1.1 ++ r2.1, r2.2)

/-- `facetIdToStructureFile` (line 47, filled at line 60): last write
wins. -/
def facetIdToFile (structures : List (String × FacetStructure)) :
    List (String × String) :=
  structures.foldl
    (fun m fs => fs.2.facets.foldl (fun m f => jsMapSet m f.id fs.1) m) []

/-- `b` is a suffix of `a` (JavaScript `a.endsWith(b)`). -/
def jsEndsWith (a b : String) : Bool := b.toList.isSuffixOf a.toList

/-- The split performed by the regex `^(.+\.md)#(.+)$`: the greedy first
group takes the longest prefix ending in `.md` that is followed by `#` and
at least one more character. -/
def pathRefSplit (s : String) : Option (String × String) :=
  let cs := s.toList
  let n := cs.length
  let idxs := (List.range n).filter (fun i =>
    4 ≤ i && decide (i + 1 < n)
      && ((cs.take i).drop (i - 3) == ['.', 'm', 'd'])
      && (cs.getD i ' ' == '#'))
  match idxs.getLast? with
  | some i => some (⟨cs.take i⟩, ⟨cs.drop (i + 1)⟩)
  | none => none

/-- Embedding of `Validator.isValidPathReference`
(src/unnamed/part_021:208-233). -/
def isValidPathReference (structures : List (String × FacetStructure))
    (ref : String) : Bool :=
  match pathRefSplit ref with
  | none => false
  | some (filePath, sect) =>
    structures.any (fun fs => fs.2.facets.any (fun f =>
      jsEndsWith f.sourceFile filePath && f.sourceSection == sect))

/-- Embedding of `Validator.validate` (src/unnamed/part_021:35-112), with
the structures (as read by `readAllStructures`) and the scanned test links
passed in; file access inside `validateStructure` is abstracted by
`sourceOk`/`sectionOk`. -/
def validate (cfg : VConfig) (sourceOk sectionOk : Facet → Bool)
    (structures : List (String × FacetStructure))
    (testLinks : List TestScanner.TestLink) : ValidationResult :=
  let dupErrors := (dupPass structures []).1
  let structResults := structures.map
    (fun fs => validateStructure cfg sourceOk sectionOk fs.2 fs.1)
  let errors := dupErrors ++ (structResults.map (fun r => r.errors)).flatten
  let structWarnings := (structResults.map (fun r => r.warnings)).flatten
  let allIds := structures.flatMap (fun fs => fs.2.facets.map (fun f => f.id))
  let referenced := testLinks.flatMap (fun l => l.facetIds)
  let linkWarnings := testLinks.flatMap (fun link =>
    link.facetIds.filterMap (fun fid =>
      if allIds.contains fid = false
          ∧ isValidPathReference structures fid = false then
        some { kind := VKind.orphanTest,
               message := "Test references unknown facet ID '" ++ fid ++ "'",
               file := some link.file, line := some link.line,
               facetId := some fid }
      else none))
  let uncovered := (TestScanner.jsDedup allIds).filterMap (fun fid =>
    if referenced.contains fid = false then
      some { kind := VKind.orphanTest,
             message := "Facet '" ++ fid ++ "' is not covered by any test",
             file := jsMapGet (facetIdToFile structures) fid, line := none,
             facetId := some fid }
    else none)
  let warnings := structWarnings ++ linkWarnings ++ uncovered
  { valid := errors.isEmpty, errors := errors, warnings := warnings }

end Validator

namespace CoverageCalculator

/-- Per-type coverage entry. -/
structure TypeCoverage where
  type : String
  total : Nat
  covered : Nat
  percentage : Nat
deriving DecidableEq, Repr

/-- The summary block of a coverage report. -/
structure Summary where
  totalFacets : Nat
  coveredFacets : Nat
  uncoveredFacets : Nat
  percentage : Nat
deriving DecidableEq, Repr

/-- The slice of a coverage report `checkThresholds` reads: the summary and
the global per-type breakdown. -/
structure CoverageReport where
  summary : Summary
  byType : List TypeCoverage
deriving DecidableEq, Repr

/-- The thresholds configuration `{global, byType}`; `byType` entries are
in `Object.entries` (insertion) order. -/
structure Thresholds where
  global : Nat
  byType : List (String × Nat)
deriving DecidableEq, Repr

/-- Embedding of `CoverageCalculator.checkThresholds`
(src/src/core/CoverageCalculator.ts:176-203): a failure message when the
global percentage is below the global threshold, then one per configured
type whose entry exists and is below its threshold; `passed` iff no
failures.  The function only reads the report. -/
def checkThresholds (cfg : Thresholds) (report : CoverageReport) :
    Bool × List String :=
  let globalFailures :=
    if report.summary.percentage < cfg.global then
      ["Global coverage " ++ toString report.summary.percentage
        ++ "% is below threshold of " ++ toString cfg.global ++ "%"]
    else []
  let typeFailures := cfg.byType.filterMap (fun tp =>
    match report.byType.find? (fun t => t.type == tp.1) with
    | some tc =>
      if tc.percentage < tp.2 then
        some (tc.type ++ " coverage " ++ toString tc.percentage
          ++ "% is below threshold of " ++ toString tp.2 ++ "%")
      else none
    | none => none)
  let failures := globalFailures ++ typeFailures
  (failures.isEmpty, failures)

end CoverageCalculator

namespace IDChangeDetector

open StructureReader (jsMapSet jsMapGet jsMapHas FileContent)

/-- Change type. -/
inductive ChangeType where
  | added
  | removed
  | renamed
deriving DecidableEq, Repr

/-- A single id change (src/unnamed/part_022:8-21); `sectionSlug` models
the source's `section` field (a Lean keyword). -/
structure IDChange where
  type : ChangeType
  oldId : Option String
  newId : Option String
  file : String
  sectionSlug : String
  title : String
deriving DecidableEq, Repr

/-- A change report (src/unnamed/part_022:26-35). -/
structure IDChangeReport where
  hasChanges : Bool
  added : List IDChange
  removed : List IDChange
  renamed : List IDChange
deriving DecidableEq, Repr

/-- The empty no-change report. -/
def emptyReport : IDChangeReport :=
  { hasChanges := false, added := [], removed := [], renamed := [] }

/-- `file#section` source key (lines 73, 82, 90). -/
def sourceKey (f : Facet) : String := f.sourceFile ++ "#" ++ f.sourceSection

/-- The result of `existsSync` + `readFileSync` + `JSON.parse` on the old
storage path. -/
inductive OldFile where
  | notExists
  | unparseable
  | parsed (s : FacetStructure)
deriving DecidableEq, Repr

/-- The removed/renamed loop (lines 87-114), iterating `existingById` in
insertion order. -/
def detectOld (newById newBySource : List (String × Facet)) :
    List (String × Facet) → List IDChange × List IDChange
  | [] => ([], [])
  | (id, facet) :: rest =>
    let r := detectOld newById newBySource rest
    if jsMapHas newById id then r
    else
      match jsMapGet newBySource (sourceKey facet) with
      | some newFacet =>
        if !(newFacet.id == id) then
          ({ type := ChangeType.renamed, oldId := some id,
             newId := some newFacet.id, file := facet.sourceFile,
             sectionSlug := facet.sourceSection,
             title := newFacet.title.getD "" } :: r.1, r.2)
        else r
      | none =>
        (r.1,
          { type := ChangeType.removed, oldId := some id, newId := none,
            file := facet.sourceFile, sectionSlug := facet.sourceSection,
            title := facet.title.getD "" } :: r.2)

/-- The added loop (lines 117-128). -/
def detectAdded (existingById : List (String × Facet))
    (renamedNewIds : List String) :
    List (String × Facet) → List IDChange
  | [] => []
  | (id, facet) :: rest =>
    let r := detectAdded existingById renamedNewIds rest
    if !(jsMapHas existingById id) && !(renamedNewIds.contains id) then
      { type := ChangeType.added, oldId := none, newId := some id,
        file := facet.sourceFile, sectionSlug := facet.sourceSection,
        title := facet.title.getD "" } :: r
    else r

/-- Build the by-id and by-source-key maps for a facet list (lines 67-84). -/
def buildMaps (facets : List Facet) :
    List (String × Facet) × List (String × Facet) :=
  (facets.foldl (fun m f => jsMapSet m f.id f) [],
    facets.foldl (fun m f => jsMapSet m (sourceKey f) f) [])

/-- Embedding of `IDChangeDetector.detectChanges`
(src/unnamed/part_022:44-136).  The old storage file read is summarized by
the `OldFile` argument: a missing or unparseable file returns the empty
report before any comparison. -/
def detectChanges (old : OldFile) (newFacets : List Facet) : IDChangeReport :=
  match old with
  | OldFile.notExists => emptyReport
  | OldFile.unparseable => emptyReport
  | OldFile.parsed existing =>
    let em := buildMaps existing.facets
    let nm := buildMaps newFacets
    let oldResult := detectOld nm.1 nm.2 em.1
    let renamed := oldResult.1
    let removed := oldResult.2
    let renamedNewIds := renamed.filterMap (fun r => r.newId)
    let added := detectAdded em.1 renamedNewIds nm.1
    { hasChanges := !added.isEmpty || !removed.isEmpty || !renamed.isEmpty,
      added := added, removed := removed, renamed := renamed }

end IDChangeDetector

namespace StructureReader

/-- If the per-facet validation loop succeeds, every facet has all required
fields, the ids are pairwise distinct, and none collides with the seen
set. -/
theorem validateFacets_ok {path : String} :
    ∀ {fs : List LooseFacet} {seen : List String},
      validateFacets path seen fs = Except.ok () →
      (∀ f ∈ fs, truthy f.id = true ∧ truthy f.sourceFile = true
        ∧ truthy f.sourceSection = true ∧ truthy f.type = true) ∧
      (fs.map (fun f => f.id.getD "")).Nodup ∧
      (∀ f ∈ fs, f.id.getD "" ∉ seen) := by
  intro fs
  induction fs with
  | nil =>
    intro seen _
    exact ⟨fun f hf => absurd hf (List.not_mem_nil f), List.nodup_nil,
      fun f hf => absurd hf (List.not_mem_nil f)⟩
  | cons f fs ih =>
    intro seen h
    simp only [validateFacets] at h
    by_cases h1 : truthy f.id = false
    · rw [if_pos h1] at h; simp at h
    rw [if_neg h1] at h
    by_cases h2 : seen.contains (f.id.getD "") = true
    · rw [if_pos h2] at h; simp at h
    rw [if_neg h2] at h
    by_cases h3 : truthy f.sourceFile = false
    · rw [if_pos h3] at h; simp at h
    rw [if_neg h3] at h
    by_cases h4 : truthy f.sourceSection = false
    · rw [if_pos h4] at h; simp at h
    rw [if_neg h4] at h
    by_cases h5 : truthy f.type = false
    · rw [if_pos h5] at h; simp at h
    rw [if_neg h5] at h
    obtain ⟨ha, hn, hs⟩ := ih h
    refine ⟨?_, ?_, ?_⟩
    · intro g hg
      rcases List.mem_cons.mp hg with hg | hg
      · subst hg
        have b1 : truthy g.id = true := by
          revert h1; cases truthy g.id <;> simp
        have b3 : truthy g.sourceFile = true := by
          revert h3; cases truthy g.sourceFile <;> simp
        have b4 : truthy g.sourceSection = true := by
          revert h4; cases truthy g.sourceSection <;> simp
        have b5 : truthy g.type = true := by
          revert h5; cases truthy g.type <;> simp
        exact ⟨b1, b3, b4, b5⟩
      · exact ha g hg
    · rw [List.map_cons]
      refine List.nodup_cons.mpr ⟨?_, hn⟩
      intro hmem
      obtain ⟨g, hg, hgid⟩ := List.mem_map.mp hmem
      exact hs g hg (by rw [hgid]; exact List.mem_cons_self _ _)
    · intro g hg
      rcases List.mem_cons.mp hg with hg | hg
      · subst hg
        intro hm
        exact h2 (List.elem_iff.mpr hm)
      · intro hm
        exact hs g hg (List.mem_cons_of_mem _ hm)

/-- Every error of the per-facet loop carries the given path. -/
theorem validateFacets_error_path {path : String} :
    ∀ {fs : List LooseFacet} {seen : List String} {e : ReadErr},
      validateFacets path seen fs = Except.error e → e.path = path := by
  intro fs
  induction fs with
  | nil => intro seen e h; simp [validateFacets] at h
  | cons f fs ih =>
    intro seen e h
    simp only [validateFacets] at h
    split at h
    · cases h; rfl
    split at h
    · cases h; rfl
    split at h
    · cases h; rfl
    split at h
    · cases h; rfl
    split at h
    · cases h; rfl
    exact ih h

/-- A successfully read structure has pairwise-distinct facet ids. -/
theorem readStructure_ok_nodup {path : String} {c : FileContent}
    {s : FacetStructure} (h : readStructure path c = Except.ok s) :
    (s.facets.map (fun f => f.id)).Nodup := by
  cases c with
  | missing => simp [readStructure] at h
  | badJson => simp [readStructure] at h
  | json ls =>
    by_cases hf : truthy ls.feature = false
    · simp [readStructure, hf] at h
    cases hfc : ls.facets with
    | none => simp [readStructure, hf, hfc] at h
    | some fs =>
      cases hv : validateFacets path [] fs with
      | error e => simp [readStructure, hf, hfc, hv] at h
      | ok u =>
        cases u
        simp only [readStructure, hf, hfc, hv, if_neg hf] at h
        have h2 := Except.ok.inj h
        subst h2
        show ((fs.map toFacet).map (fun f => f.id)).Nodup
        rw [List.map_map]
        have hcomp : ((fun f : Facet => f.id) ∘ toFacet)
            = (fun f : LooseFacet => f.id.getD "") := rfl
        rw [hcomp]
        exact (validateFacets_ok hv).2.1

/-- A `readStructure` error names the file's own path. -/
theorem readStructure_error_path {path : String} {c : FileContent}
    {e : ReadErr} (h : readStructure path c = Except.error e) :
    e.path = path := by
  cases c with
  | missing => cases h; rfl
  | badJson => cases h; rfl
  | json ls =>
    by_cases hf : truthy ls.feature = false
    · simp only [readStructure, if_pos hf] at h
      cases h; rfl
    cases hfc : ls.facets with
    | none =>
      simp only [readStructure, if_neg hf, hfc] at h
      cases h; rfl
    | some fs =>
      cases hv : validateFacets path [] fs with
      | error e2 =>
        simp only [readStructure, if_neg hf, hfc, hv] at h
        cases h
        exact validateFacets_error_path hv
      | ok u =>
        cases u
        simp only [readStructure, if_neg hf, hfc, hv] at h
        simp at h

/-- A malformed file makes `readStructure` throw. -/
theorem readStructure_malformed {path : String} {c : FileContent}
    (hm : Malformed c) : isError (readStructure path c) = true := by
  cases c with
  | missing => rfl
  | badJson => rfl
  | json ls =>
    simp only [readStructure]
    by_cases hf : truthy ls.feature = false
    · rw [if_pos hf]; rfl
    rw [if_neg hf]
    rcases hm with hm | hm | ⟨fs, hfs, f, hf2, hbad⟩
    · exact absurd hm hf
    · rw [hm]; rfl
    · have hft : truthy ls.feature = true := by
        revert hf; cases truthy ls.feature <;> simp
      cases hv : validateFacets path [] fs with
      | error e => simp [readStructure, hfs, hv, hft, isError]
      | ok u =>
        cases u
        have hall := (validateFacets_ok hv).1 f hf2
        rcases hbad with hb | hb | hb | hb <;> simp [hb] at hall

/-- `readAllAux` aborts whenever a listed file is malformed. -/
theorem readAllAux_malformed {p : String} {c : FileContent}
    (hm : Malformed c) :
    ∀ (files : List (String × FileContent))
      (acc : List (String × FacetStructure)), (p, c) ∈ files →
      isError (readAllAux acc files) = true := by
  intro files
  induction files with
  | nil => intro acc hmem; cases hmem
  | cons qc rest ih =>
    intro acc hmem
    obtain ⟨q, c0⟩ := qc
    simp only [readAllAux]
    cases hr : readStructure q c0 with
    | error e => rfl
    | ok s =>
      rcases List.mem_cons.mp hmem with heq | hmem2
      · cases heq
        have h1 := @readStructure_malformed p c hm
        rw [hr] at h1
        simp [isError] at h1
      · exact ih (jsMapSet acc q s) hmem2

/-- If every file before some position reads cleanly and the file at that
position throws, `readAllAux` returns exactly that error. -/
theorem readAllAux_first_error :
    ∀ (pre : List (String × FileContent)) (p : String) (c : FileContent)
      (post : List (String × FileContent)) (e : ReadErr)
      (acc : List (String × FacetStructure)),
      (∀ q ∈ pre, isError (readStructure q.1 q.2) = false) →
      readStructure p c = Except.error e →
      readAllAux acc (pre ++ (p, c) :: post) = Except.error e := by
  intro pre
  induction pre with
  | nil =>
    intro p c post e acc _ herr
    simp only [List.nil_append, readAllAux]
    rw [herr]
  | cons qc rest ih =>
    intro p c post e acc hok herr
    obtain ⟨q, c0⟩ := qc
    simp only [List.cons_append, readAllAux]
    cases hr : readStructure q c0 with
    | error e2 =>
      have h1 := hok (q, c0) (List.mem_cons_self _ _)
      rw [hr] at h1
      simp [isError] at h1
    | ok s =>
      exact ih p c post e (jsMapSet acc q s)
        (fun x hx => hok x (List.mem_cons_of_mem _ hx)) herr

/-- `jsMapSet` keeps the key list when the key exists and appends it
otherwise. -/
theorem jsMapSet_keys {β : Type} :
    ∀ (m : List (String × β)) (k : String) (v : β),
      (jsMapSet m k v).map Prod.fst
        = if k ∈ m.map Prod.fst then m.map Prod.fst
          else m.map Prod.fst ++ [k] := by
  intro m
  induction m with
  | nil => intro k v; simp [jsMapSet]
  | cons p rest ih =>
    intro k v
    obtain ⟨k0, v0⟩ := p
    simp only [jsMapSet]
    by_cases hk : k0 = k
    · subst hk
      simp
    · rw [if_neg hk]
      simp only [List.map_cons, ih]
      by_cases hmem : k ∈ rest.map Prod.fst
      · simp [hmem]
      · simp [hmem, List.mem_cons, Ne.symm hk]

/-- Everything in `jsMapSet m k v` was in `m` or is the new binding. -/
theorem jsMapSet_mem {β : Type} :
    ∀ (m : List (String × β)) (k : String) (v : β) (x : String × β),
      x ∈ jsMapSet m k v → x ∈ m ∨ x = (k, v) := by
  intro m
  induction m with
  | nil =>
    intro k v x hx
    simp [jsMapSet] at hx
    exact Or.inr hx
  | cons p rest ih =>
    intro k v x hx
    obtain ⟨k0, v0⟩ := p
    simp only [jsMapSet] at hx
    by_cases hk : k0 = k
    · rw [if_pos hk] at hx
      rcases List.mem_cons.mp hx with hx | hx
      · subst hx
        subst hk
        exact Or.inr rfl
      · exact Or.inl (List.mem_cons_of_mem _ hx)
    · rw [if_neg hk] at hx
      rcases List.mem_cons.mp hx with hx | hx
      · subst hx
        exact Or.inl (List.mem_cons_self _ _)
      · rcases ih k v x hx with hx2 | hx2
        · exact Or.inl (List.mem_cons_of_mem _ hx2)
        · exact Or.inr hx2

/-- A successful `readAllAux` run extends a well-formed accumulated map to a
well-formed map: distinct keys, and distinct facet ids within each stored
structure. -/
theorem readAllAux_ok_good :
    ∀ (files : List (String × FileContent))
      (acc m : List (String × FacetStructure)),
      readAllAux acc files = Except.ok m →
      (acc.map Prod.fst).Nodup →
      (∀ x ∈ acc, (x.2.facets.map (fun f => f.id)).Nodup) →
      (m.map Prod.fst).Nodup ∧
        ∀ x ∈ m, (x.2.facets.map (fun f => f.id)).Nodup := by
  intro files
  induction files with
  | nil =>
    intro acc m h h1 h2
    cases h
    exact ⟨h1, h2⟩
  | cons pc rest ih =>
    intro acc m h h1 h2
    obtain ⟨p, c⟩ := pc
    simp only [readAllAux] at h
    split at h
    · simp at h
    rename_i s hr
    refine ih (jsMapSet acc p s) m h ?_ ?_
    · rw [jsMapSet_keys]
      by_cases hmem : p ∈ acc.map Prod.fst
      · rw [if_pos hmem]; exact h1
      · rw [if_neg hmem]
        simp only [List.nodup_append, List.nodup_cons, List.nodup_nil]
        exact ⟨h1, by simp [hmem]⟩
    · intro x hx
      rcases jsMapSet_mem acc p s x hx with hx2 | hx2
      · exact h2 x hx2
      · subst hx2
        exact readStructure_ok_nodup hr

end StructureReader

namespace Validator

/-- Filtering a flattened map when each piece's filtrate is a singleton or
empty, governed by a Boolean predicate on the originating element. -/
theorem filter_flatten_map {α β : Type} (p : β → Bool) (q : α → Bool)
    (g : α → List β) (m : α → β) :
    ∀ (l : List α), (∀ a ∈ l, (g a).filter p = if q a then [m a] else []) →
      ((l.map g).flatten).filter p = (l.filter q).map m := by
  intro l
  induction l with
  | nil => intro _; rfl
  | cons a l ih =>
    intro hall
    rw [List.map_cons, List.flatten_cons, List.filter_append,
      hall a (List.mem_cons_self _ _),
      ih (fun x hx => hall x (List.mem_cons_of_mem _ hx)),
      List.filter_cons]
    by_cases hq : q a = true
    · rw [if_pos hq, if_pos hq, List.map_cons, List.singleton_append]
    · rw [if_neg hq, if_neg hq, List.nil_append]

/-- The orphan-sub-facet errors a single facet contributes, when its source
check cannot cut the loop short: one exactly when the facet is a sub-facet
with a parent id absent from the structure. -/
theorem facetFindings_orphan_filter (cfg : VConfig)
    (sourceOk sectionOk : Facet → Bool) (structureFile : String)
    (inStructure : List String) (f : Facet)
    (hsrc : cfg.requireSourceExists = false ∨ sourceOk f = true) :
    ((facetFindings cfg sourceOk sectionOk structureFile inStructure f).1.filter
        (fun e => e.kind == VKind.orphanSubfacet))
      = if f.isSubFacet && truthy f.parentId
            && !(inStructure.contains (f.parentId.getD "")) then
          [mkErr VKind.orphanSubfacet
            ("Sub-facet '" ++ f.id ++ "' references non-existent parent '"
              ++ f.parentId.getD "" ++ "'") structureFile f.id]
        else [] := by
  have hno : ¬ (cfg.requireSourceExists = true ∧ sourceOk f = false) := by
    rcases hsrc with h | h <;> simp [h]
  simp only [facetFindings]
  rw [if_neg hno]
  simp only [List.filter_append]
  repeat' split
  all_goals simp_all [mkErr]

/-- Every error emitted by the per-facet loop body is a missing-source,
missing-section or orphan-sub-facet error. -/
theorem facetFindings_error_kinds (cfg : VConfig)
    (sourceOk sectionOk : Facet → Bool) (structureFile : String)
    (inStructure : List String) (f : Facet) (e : ValidationError)
    (he : e ∈ (facetFindings cfg sourceOk sectionOk structureFile
        inStructure f).1) :
    e.kind = VKind.missingSource ∨ e.kind = VKind.missingSection
      ∨ e.kind = VKind.orphanSubfacet := by
  simp only [facetFindings] at he
  split at he
  · simp only [List.mem_singleton] at he
    rw [he]
    exact Or.inl rfl
  · rw [List.mem_append] at he
    rcases he with he | he
    · split at he
      · simp only [List.mem_singleton] at he
        rw [he]
        exact Or.inr (Or.inl rfl)
      · cases he
    · split at he
      · simp only [List.mem_singleton] at he
        rw [he]
        exact Or.inr (Or.inr rfl)
      · cases he

/-- The orphan-sub-facet errors of `validateStructure`: exactly one per
sub-facet whose present parent id is not an id of the same structure (when
no facet's source check cuts its loop iteration short). -/
theorem validateStructure_orphan_filter (cfg : VConfig)
    (sourceOk sectionOk : Facet → Bool) (s : FacetStructure)
    (structureFile : String)
    (hsrc : ∀ g ∈ s.facets, cfg.requireSourceExists = false
      ∨ sourceOk g = true) :
    ((validateStructure cfg sourceOk sectionOk s structureFile).errors.filter
        (fun e => e.kind == VKind.orphanSubfacet))
      = (s.facets.filter (fun f => f.isSubFacet && truthy f.parentId
            && !((s.facets.map (fun g => g.id)).contains
                  (f.parentId.getD "")))).map
          (fun f => mkErr VKind.orphanSubfacet
            ("Sub-facet '" ++ f.id ++ "' references non-existent parent '"
              ++ f.parentId.getD "" ++ "'") structureFile f.id) := by
  show (((s.facets.map (facetFindings cfg sourceOk sectionOk structureFile
      (s.facets.map (fun f => f.id)))).map Prod.fst).flatten.filter
        (fun e => e.kind == VKind.orphanSubfacet)) = _
  rw [List.map_map]
  refine filter_flatten_map (fun e => e.kind == VKind.orphanSubfacet)
    (fun f => f.isSubFacet && truthy f.parentId
      && !((s.facets.map (fun g => g.id)).contains (f.parentId.getD "")))
    (Prod.fst ∘ facetFindings cfg sourceOk sectionOk structureFile
      (s.facets.map (fun f => f.id)))
    (fun f => mkErr VKind.orphanSubfacet
      ("Sub-facet '" ++ f.id ++ "' references non-existent parent '"
        ++ f.parentId.getD "" ++ "'") structureFile f.id)
    s.facets ?_
  intro f hf
  exact facetFindings_orphan_filter cfg sourceOk sectionOk
    structureFile (s.facets.map (fun f => f.id)) f (hsrc f hf)

/-- Every `validateStructure` error is a missing-source, missing-section or
orphan-sub-facet error; in particular none is a duplicate-id error. -/
theorem validateStructure_error_kinds (cfg : VConfig)
    (sourceOk sectionOk : Facet → Bool) (s : FacetStructure)
    (structureFile : String) (e : ValidationError)
    (he : e ∈ (validateStructure cfg sourceOk sectionOk s
        structureFile).errors) :
    e.kind = VKind.missingSource ∨ e.kind = VKind.missingSection
      ∨ e.kind = VKind.orphanSubfacet := by
  have he2 : e ∈ ((s.facets.map (facetFindings cfg sourceOk sectionOk
      structureFile (s.facets.map (fun f => f.id)))).map Prod.fst).flatten := he
  rw [List.map_map] at he2
  obtain ⟨l, hl, hel⟩ := List.mem_flatten.mp he2
  obtain ⟨f, hf, rfl⟩ := List.mem_map.mp hl
  have hel2 : e ∈ (facetFindings cfg sourceOk sectionOk structureFile
      (s.facets.map (fun f => f.id)) f).1 := hel
  exact facetFindings_error_kinds cfg sourceOk sectionOk structureFile
    (s.facets.map (fun f => f.id)) f e hel2

/-- An orphan sub-facet whose loop iteration is reached makes the whole
structure invalid. -/
theorem validateStructure_orphan_invalid (cfg : VConfig)
    (sourceOk sectionOk : Facet → Bool) (s : FacetStructure)
    (structureFile : String) (f : Facet)
    (hf : f ∈ s.facets) (hsub : f.isSubFacet = true)
    (hpid : truthy f.parentId = true)
    (hnp : (s.facets.map (fun g => g.id)).contains (f.parentId.getD "") = false)
    (hsrc : cfg.requireSourceExists = false ∨ sourceOk f = true) :
    (validateStructure cfg sourceOk sectionOk s structureFile).valid
      = false := by
  have hflt := facetFindings_orphan_filter cfg sourceOk sectionOk structureFile
    (s.facets.map (fun g => g.id)) f hsrc
  rw [if_pos (by rw [hsub, hpid, hnp]; rfl)] at hflt
  have horf : mkErr VKind.orphanSubfacet
      ("Sub-facet '" ++ f.id ++ "' references non-existent parent '"
        ++ f.parentId.getD "" ++ "'") structureFile f.id
      ∈ (facetFindings cfg sourceOk sectionOk structureFile
          (s.facets.map (fun g => g.id)) f).1 := by
    refine @List.mem_of_mem_filter _ (fun e => e.kind == VKind.orphanSubfacet) _ _ ?_
    rw [hflt]
    exact List.mem_singleton.mpr rfl
  have hmem : mkErr VKind.orphanSubfacet
      ("Sub-facet '" ++ f.id ++ "' references non-existent parent '"
        ++ f.parentId.getD "" ++ "'") structureFile f.id
      ∈ ((s.facets.map (facetFindings cfg sourceOk sectionOk structureFile
          (s.facets.map (fun g => g.id)))).map Prod.fst).flatten := by
    rw [List.map_map]
    exact List.mem_flatten.mpr ⟨_, List.mem_map.mpr ⟨f, hf, rfl⟩, horf⟩
  show (((s.facets.map (facetFindings cfg sourceOk sectionOk structureFile
      (s.facets.map (fun f => f.id)))).map Prod.fst).flatten).isEmpty = false
  cases hE : ((s.facets.map (facetFindings cfg sourceOk sectionOk structureFile
      (s.facets.map (fun f => f.id)))).map Prod.fst).flatten with
  | nil => rw [hE] at hmem; cases hmem
  | cons a t => rfl

/-- What the duplicate-id pass records as seen: the ids of the traversed
structures plus the initial seen set. -/
theorem dupPassFacets_seen (structureFile : String) :
    ∀ (fs : List Facet) (seen : List String) (x : String),
      (x ∈ (dupPassFacets structureFile fs seen).2 ↔
        x ∈ fs.map (fun f => f.id) ∨ x ∈ seen) := by
  intro fs
  induction fs with
  | nil =>
    intro seen x
    simp [dupPassFacets]
  | cons f fs ih =>
    intro seen x
    simp only [dupPassFacets]
    rw [ih (f.id :: seen) x]
    simp only [List.map_cons, List.mem_cons]
    tauto

/-- When one structure's ids are pairwise distinct, each of its
duplicate-id findings names an id that was already seen before the
structure was visited. -/
theorem dupPassFacets_errors (structureFile : String) :
    ∀ (fs : List Facet) (seen : List String) (e : ValidationError),
      (fs.map (fun f => f.id)).Nodup →
      e ∈ (dupPassFacets structureFile fs seen).1 →
      ∃ id, e = mkErr VKind.duplicateId
          ("Duplicate facet ID '" ++ id ++ "' found in multiple structure files")
          structureFile id ∧ id ∈ fs.map (fun f => f.id) ∧ id ∈ seen := by
  intro fs
  induction fs with
  | nil => intro seen e _ he; simp [dupPassFacets] at he
  | cons f fs ih =>
    intro seen e hnd he
    simp only [dupPassFacets] at he
    rw [List.mem_append] at he
    rcases he with he | he
    · by_cases hc : seen.contains f.id = true
      · rw [if_pos hc] at he
        simp only [List.mem_singleton] at he
        exact ⟨f.id, he, by simp, List.elem_iff.mp hc⟩
      · rw [if_neg hc] at he
        cases he
    · have hnd2 : (fs.map (fun f => f.id)).Nodup :=
        (List.nodup_cons.mp (by simpa using hnd)).2
      obtain ⟨id, h1, h2, h3⟩ := ih (f.id :: seen) e hnd2 he
      have h2a : id ∈ (f :: fs).map (fun f => f.id) := by
        simp only [List.map_cons, List.mem_cons]
        exact Or.inr h2
      have h3a : id ∈ seen := by
        rcases List.mem_cons.mp h3 with h4 | h4
        · exfalso
          have hfnot : f.id ∉ fs.map (fun f => f.id) :=
            (List.nodup_cons.mp (by simpa using hnd)).1
          rw [h4] at h2
          exact hfnot h2
        · exact h4
      exact ⟨id, h1, h2a, h3a⟩

/-- Every duplicate-id finding of the full pass (over structures with
distinct file keys and internally distinct ids) names an id occurring in
two structures with different file keys, or one already seen initially. -/
theorem dupPass_errors :
    ∀ (structures : List (String × FacetStructure)) (seen : List String)
      (e : ValidationError),
      (structures.map Prod.fst).Nodup →
      (∀ x ∈ structures, (x.2.facets.map (fun f => f.id)).Nodup) →
      e ∈ (dupPass structures seen).1 →
      ∃ file2 s2 id, (file2, s2) ∈ structures ∧
        e = mkErr VKind.duplicateId
          ("Duplicate facet ID '" ++ id ++ "' found in multiple structure files")
          file2 id ∧ id ∈ s2.facets.map (fun f => f.id) ∧
        (id ∈ seen ∨ ∃ file1 s1, (file1, s1) ∈ structures ∧ file1 ≠ file2 ∧
          id ∈ s1.facets.map (fun f => f.id)) := by
  intro structures
  induction structures with
  | nil => intro seen e _ _ he; simp [dupPass] at he
  | cons fsp rest ih =>
    intro seen e hk hs he
    obtain ⟨file, s⟩ := fsp
    simp only [dupPass] at he
    rw [List.mem_append] at he
    rcases he with he | he
    · obtain ⟨id, h1, h2, h3⟩ := dupPassFacets_errors file s.facets seen e
        (hs (file, s) (List.mem_cons_self _ _)) he
      exact ⟨file, s, id, List.mem_cons_self _ _, h1, h2, Or.inl h3⟩
    · have hk2 : (rest.map Prod.fst).Nodup :=
        (List.nodup_cons.mp (by simpa using hk)).2
      have hknot : file ∉ rest.map Prod.fst :=
        (List.nodup_cons.mp (by simpa using hk)).1
      obtain ⟨f2, s2, id, hmem, h1, h2, h3⟩ :=
        ih ((dupPassFacets file s.facets seen).2) e hk2
          (fun x hx => hs x (List.mem_cons_of_mem _ hx)) he
      refine ⟨f2, s2, id, List.mem_cons_of_mem _ hmem, h1, h2, ?_⟩
      rcases h3 with h3 | ⟨f1, s1, hm1, hne1, hid1⟩
      · rw [dupPassFacets_seen] at h3
        rcases h3 with h3 | h3
        · refine Or.inr ⟨file, s, List.mem_cons_self _ _, ?_, h3⟩
          intro heq
          apply hknot
          rw [heq]
          exact List.mem_map.mpr ⟨(f2, s2), hmem, rfl⟩
        · exact Or.inl h3
      · exact Or.inr ⟨f1, s1, List.mem_cons_of_mem _ hm1, hne1, hid1⟩

/-- Every duplicate-id error of the full validator names an id that occurs
in two different structure files. -/
theorem validate_duplicate_errors (cfg : VConfig)
    (sourceOk sectionOk : Facet → Bool)
    (structures : List (String × FacetStructure))
    (testLinks : List TestScanner.TestLink) (e : ValidationError)
    (hkeys : (structures.map Prod.fst).Nodup)
    (hstr : ∀ x ∈ structures, (x.2.facets.map (fun f => f.id)).Nodup)
    (he : e ∈ (validate cfg sourceOk sectionOk structures testLinks).errors)
    (hdup : e.kind = VKind.duplicateId) :
    ∃ file2 s2 id, (file2, s2) ∈ structures ∧ e.file = some file2 ∧
      e.facetId = some id ∧ id ∈ s2.facets.map (fun f => f.id) ∧
      ∃ file1 s1, (file1, s1) ∈ structures ∧ file1 ≠ file2 ∧
        id ∈ s1.facets.map (fun f => f.id) := by
  have he2 : e ∈ (dupPass structures []).1
      ++ ((structures.map (fun fs =>
            validateStructure cfg sourceOk sectionOk fs.2 fs.1)).map
          (fun r => r.errors)).flatten := he
  rw [List.mem_append] at he2
  rcases he2 with he2 | he2
  · obtain ⟨f2, s2, id, hmem, h1, h2, h3⟩ :=
      dupPass_errors structures [] e hkeys hstr he2
    rcases h3 with h3 | ⟨f1, s1, hm1, hne1, hid1⟩
    · cases h3
    · refine ⟨f2, s2, id, hmem, ?_, ?_, h2, f1, s1, hm1, hne1, hid1⟩
      · rw [h1]; rfl
      · rw [h1]; rfl
  · rw [List.map_map] at he2
    obtain ⟨l, hl, hel⟩ := List.mem_flatten.mp he2
    obtain ⟨fs, hfs, rfl⟩ := List.mem_map.mp hl
    have hkind := validateStructure_error_kinds cfg sourceOk sectionOk
      fs.2 fs.1 e hel
    rw [hdup] at hkind
    rcases hkind with h | h | h <;> cases h

end Validator

/-- C4, as amended: `slugify` lowercases its input, strips every character
that is not a word character (letter, digit or underscore), whitespace or
hyphen, collapses each whitespace run to a single hyphen, collapses
repeated hyphens to one, and trims leading and trailing hyphens.  The
original claim omitted underscores, which the source's `\w` class
preserves. -/
theorem claim_C4 (s : String) :
    FacetParser.slugify s = FacetParser.slugifySpecAmended s :=
  FacetParser.slugify_eq_specAmended s

/-- Counterexample to the original C4: an underscore survives `slugify` but
the claimed transformation (strip everything but letters, digits, spaces
and hyphens) would delete it. -/
theorem claim_C4_counterexample :
    FacetParser.slugify "a_b" = "a_b"
    ∧ FacetParser.slugifySpecClaimed "a_b" = "ab"
    ∧ FacetParser.slugify "a_b" ≠ FacetParser.slugifySpecClaimed "a_b" := by
  refine ⟨rfl, rfl, by decide⟩

/-- C9: `slugify` is idempotent. -/
theorem claim_C9 (x : String) :
    FacetParser.slugify (FacetParser.slugify x) = FacetParser.slugify x := by
  rw [FacetParser.slugify_eq_specAmended (FacetParser.slugify x),
    FacetParser.slugify_eq_specAmended x, FacetParser.specAmended_idem]

/-- C8: when the old storage path does not exist or cannot be parsed,
`detectChanges` returns the empty no-change report for every new
requirement list. -/
theorem claim_C8 (newFacets : List Facet) :
    IDChangeDetector.detectChanges IDChangeDetector.OldFile.notExists
        newFacets = IDChangeDetector.emptyReport
    ∧ IDChangeDetector.detectChanges IDChangeDetector.OldFile.unparseable
        newFacets = IDChangeDetector.emptyReport :=
  ⟨rfl, rfl⟩

/-- C7: with no per-type thresholds, a report whose global percentage
equals the global threshold passes with no failures, and one a unit below
fails with the global failure message (the function only reads the
report). -/
theorem claim_C7 (cfg : CoverageCalculator.Thresholds)
    (report : CoverageCalculator.CoverageReport)
    (hbt : cfg.byType = []) :
    (report.summary.percentage = cfg.global →
      CoverageCalculator.checkThresholds cfg report = (true, []))
    ∧ (report.summary.percentage + 1 = cfg.global →
      CoverageCalculator.checkThresholds cfg report
        = (false, ["Global coverage " ++ toString report.summary.percentage
            ++ "% is below threshold of " ++ toString cfg.global ++ "%"])) := by
  simp only [CoverageCalculator.checkThresholds, hbt, List.filterMap_nil]
  constructor
  · intro he
    rw [if_neg (by omega)]
    rfl
  · intro hlt
    rw [if_pos (by omega)]
    rfl

/-- Witness for C7 at a concrete threshold of 75. -/
theorem claim_C7_witness :
    CoverageCalculator.checkThresholds ⟨75, []⟩ ⟨⟨4, 3, 1, 75⟩, []⟩
      = (true, [])
    ∧ CoverageCalculator.checkThresholds ⟨75, []⟩ ⟨⟨4, 3, 1, 74⟩, []⟩
      = (false, ["Global coverage 74% is below threshold of 75%"]) := by
  constructor
  · exact (claim_C7 ⟨75, []⟩ ⟨⟨4, 3, 1, 75⟩, []⟩ rfl).1 rfl
  · exact (claim_C7 ⟨75, []⟩ ⟨⟨4, 3, 1, 74⟩, []⟩ rfl).2 rfl

/-- C2, as amended: every parsed section's recorded sub-facet markers are
exactly the markers found on the lines strictly after its heading up to but
excluding its last line, in order of discovery with absolute 1-indexed line
numbers; when the section carries an explicit anchor id, markers with that
id are dropped.  The original claim scanned through the last line inclusive
and kept anchor-id markers. -/
theorem claim_C2 (content filePath : String)
    (s : FacetParser.MarkdownSection)
    (hmem : s ∈ (FacetParser.parseContent content filePath).sections) :
    FacetParser.sectionSubFacetList s
      = (FacetParser.markersInRange (JsStr.splitNewlines content)
            (s.startLine + 1) (s.endLine - 1)).filter
          (fun m => match s.explicitId with
            | some e => m.id != e
            | none => true) := by
  have hmem2 : s ∈ FacetParser.sectionsFrom (JsStr.splitNewlines content)
      (FacetParser.findHeadings 0 (JsStr.splitNewlines content)) := hmem
  refine FacetParser.sectionsFrom_spec (JsStr.splitNewlines content)
    (FacetParser.findHeadings 0 (JsStr.splitNewlines content)) ?_ ?_ s hmem2
  · intro h hm
    have hb := FacetParser.findHeadings_line_bounds
      (JsStr.splitNewlines content) 0 h hm
    omega
  · exact FacetParser.findHeadings_chain (JsStr.splitNewlines content) 0

/-- Counterexample to the original C2: the comment marker on the section's
last line (line 4) and the link marker matching the explicit anchor id
(line 2) are both skipped, so the section records one marker where the
claim predicts three. -/
theorem claim_C2_counterexample :
    (FacetParser.parseContent "# A\n[](#aid)\n[](#x)\n<!-- @facet:y -->"
        "f.md").sections
      = [⟨"A", "aid", 1, 1, 4, "[](#aid)\n[](#x)", some "aid",
          some [⟨"x", 3, FacetParser.MarkerType.link⟩]⟩]
    ∧ FacetParser.markersInRange
        (JsStr.splitNewlines "# A\n[](#aid)\n[](#x)\n<!-- @facet:y -->") 2 4
      = [⟨"aid", 2, FacetParser.MarkerType.link⟩,
         ⟨"x", 3, FacetParser.MarkerType.link⟩,
         ⟨"y", 4, FacetParser.MarkerType.comment⟩] := by
  exact ⟨by decide, by decide⟩

/-- Witness for C2 on a concrete document with an explicit anchor. -/
theorem claim_C2_witness :
    ∃ s, s ∈ (FacetParser.parseContent
        "# A\n[](#aid)\n[](#x)\n<!-- @facet:y -->" "f.md").sections
      ∧ FacetParser.sectionSubFacetList s
          = (FacetParser.markersInRange
                (JsStr.splitNewlines "# A\n[](#aid)\n[](#x)\n<!-- @facet:y -->")
                (s.startLine + 1) (s.endLine - 1)).filter
              (fun m => match s.explicitId with
                | some e => m.id != e
                | none => true) := by
  refine ⟨⟨"A", "aid", 1, 1, 4, "[](#aid)\n[](#x)", some "aid",
    some [⟨"x", 3, FacetParser.MarkerType.link⟩]⟩, ?_, ?_⟩
  · decide
  · exact claim_C2 "# A\n[](#aid)\n[](#x)\n<!-- @facet:y -->" "f.md" _
      (by decide)

/-- C1: a test declaration matched by neither a leading comment annotation
nor an inline metadata annotation, whose body lines contain two standalone
`facet(...)` calls referencing three distinct string ids in total, yields
exactly one test link, emitted when the body's closing line brings the
brace depth back to the test's start level, and its `facetIds` are the
three ids with duplicates across calls removed (first occurrence order). -/
theorem claim_C1 (knownTypes : List String)
    (content fileLabel decl b1 b2 close t x y z : String)
    (hsplit : JsStr.splitNewlines content = decl :: [b1, b2] ++ [close])
    (hdc : TestScanner.commentFacetIds decl = none)
    (hdd : TestScanner.describeMatch decl = none)
    (hdo : TestScanner.countChar '{' decl = 1)
    (hdz : TestScanner.countChar '}' decl = 0)
    (hdt : TestScanner.testMatchOf decl = some t)
    (hda : TestScanner.annotMatch (String.intercalate "\n"
        ((decl :: [b1, b2] ++ [close]).take 10)) = none)
    (hb : ∀ l ∈ [b1, b2], TestScanner.commentFacetIds l = none
      ∧ TestScanner.describeMatch l = none
      ∧ TestScanner.countChar '{' l = TestScanner.countChar '}' l
      ∧ TestScanner.testMatchOf l = none)
    (hcc : TestScanner.commentFacetIds close = none)
    (hcd : TestScanner.describeMatch close = none)
    (hco : TestScanner.countChar '{' close = 0)
    (hcz : TestScanner.countChar '}' close = 1)
    (hcf : TestScanner.matchFacetCall close = none)
    (hct : TestScanner.testMatchOf close = none)
    (hdistinct : x ≠ y ∧ y ≠ z ∧ x ≠ z)
    (hids : TestScanner.jsDedup (TestScanner.lineCollectIds knownTypes b1
        ++ TestScanner.lineCollectIds knownTypes b2) = [x, y, z]) :
    TestScanner.scanContent knownTypes content fileLabel
      = [TestScanner.mkLink fileLabel t t [x, y, z] 1] := by
  have hflat : [b1, b2].flatMap (TestScanner.lineCollectIds knownTypes)
      = TestScanner.lineCollectIds knownTypes b1
        ++ TestScanner.lineCollectIds knownTypes b2 := by
    simp
  have hne : [b1, b2].flatMap (TestScanner.lineCollectIds knownTypes)
      ≠ [] := by
    intro h0
    rw [hflat] at h0
    rw [h0] at hids
    simp [TestScanner.jsDedup, TestScanner.jsDedupAux] at hids
  rw [TestScanner.scanContent_inBody knownTypes content fileLabel decl close t
    [b1, b2] hsplit hdc hdd hdo hdz hdt hda
    (fun l hl => (hb l hl).1) (fun l hl => (hb l hl).2.1)
    (fun l hl => (hb l hl).2.2.1) (fun l hl => (hb l hl).2.2.2)
    hcc hcd hco hcz hcf hct hne]
  rw [hflat, hids]

/-- Witness for C1: a concrete two-call test body with ids x, y, y, z. -/
theorem claim_C1_witness :
    TestScanner.scanContent TestScanner.defaultFacetTypes
      "test('a', () => \x7b\n  facet('x', 'y');\n  facet('y', 'z');\n\x7d);"
      "spec.ts"
      = [TestScanner.mkLink "spec.ts" "a" "a" ["x", "y", "z"] 1] :=
  claim_C1 TestScanner.defaultFacetTypes
    "test('a', () => \x7b\n  facet('x', 'y');\n  facet('y', 'z');\n\x7d);"
    "spec.ts" "test('a', () => \x7b" "  facet('x', 'y');" "  facet('y', 'z');"
    "\x7d);" "a" "x" "y" "z"
    (by decide) (by decide) (by decide) (by decide) (by decide) (by decide)
    (by decide) (by decide) (by decide) (by decide) (by decide) (by decide)
    (by decide) (by decide) (by decide) (by decide)

/-- C3: when the old requirement set is a single facet at some source and
the new set is a single facet at the same source under a different id,
`detectChanges` reports exactly one rename from the old id to the new id
carrying the new facet's title, nothing added and nothing removed. -/
theorem claim_C3 (oldF newF : Facet) (feature : String)
    (hfile : newF.sourceFile = oldF.sourceFile)
    (hsec : newF.sourceSection = oldF.sourceSection)
    (hne : newF.id ≠ oldF.id) :
    IDChangeDetector.detectChanges
        (IDChangeDetector.OldFile.parsed ⟨feature, [oldF]⟩) [newF]
      = ⟨true, [], [],
          [⟨IDChangeDetector.ChangeType.renamed, some oldF.id, some newF.id,
            oldF.sourceFile, oldF.sourceSection, newF.title.getD ""⟩]⟩ := by
  have hb1 : (newF.id == oldF.id) = false := by
    simp [hne]
  have hb2 : (oldF.id == newF.id) = false := by
    simp [Ne.symm hne]
  simp [IDChangeDetector.detectChanges, IDChangeDetector.buildMaps,
    IDChangeDetector.detectOld, IDChangeDetector.detectAdded,
    IDChangeDetector.sourceKey, StructureReader.jsMapSet,
    StructureReader.jsMapGet, StructureReader.jsMapHas,
    IDChangeDetector.emptyReport, hb1, hb2, hfile, hsec, List.find?]

/-- Witness for C3 at concrete facets t:a and t:b sharing source d.md#s. -/
theorem claim_C3_witness :
    IDChangeDetector.detectChanges
        (IDChangeDetector.OldFile.parsed ⟨"F",
          [⟨"t:a", "d.md", "s", none, "t", some "Old", none, none, false⟩]⟩)
        [⟨"t:b", "d.md", "s", none, "t", some "New", none, none, false⟩]
      = ⟨true, [], [],
          [⟨IDChangeDetector.ChangeType.renamed, some "t:a", some "t:b",
            "d.md", "s", "New"⟩]⟩ :=
  claim_C3 ⟨"t:a", "d.md", "s", none, "t", some "Old", none, none, false⟩
    ⟨"t:b", "d.md", "s", none, "t", some "New", none, none, false⟩
    "F" rfl rfl (by decide)

/-- C5: a malformed structure file (nonexistent, invalid JSON, or missing a
required feature, facets, id, source.file, source.section or type field)
anywhere in the discovered set makes `readAllStructures` return a thrown
error instead of a map; when every earlier file reads cleanly, the
propagated error is the malformed file's own and carries its path. -/
theorem claim_C5 (files pre post : List (String × StructureReader.FileContent))
    (p : String) (c : StructureReader.FileContent)
    (hm : StructureReader.Malformed c) :
    ((p, c) ∈ files →
      StructureReader.isError (StructureReader.readAllStructures files)
        = true)
    ∧ (files = pre ++ (p, c) :: post →
        (∀ q ∈ pre, StructureReader.isError
          (StructureReader.readStructure q.1 q.2) = false) →
        ∃ e, StructureReader.readAllStructures files = Except.error e
          ∧ e.path = p) := by
  constructor
  · intro hmem
    exact StructureReader.readAllAux_malformed hm files [] hmem
  · intro heq hpre
    subst heq
    have h1 := @StructureReader.readStructure_malformed p c hm
    cases hr : StructureReader.readStructure p c with
    | ok s =>
      rw [hr] at h1
      simp [StructureReader.isError] at h1
    | error e =>
      refine ⟨e, ?_, StructureReader.readStructure_error_path hr⟩
      exact StructureReader.readAllAux_first_error pre p c post e [] hpre hr

/-- Witness for C5: a well-formed first file followed by a missing one. -/
theorem claim_C5_witness :
    StructureReader.isError (StructureReader.readAllStructures
      [("a.json", StructureReader.FileContent.json
          ⟨some "F", some []⟩),
       ("b.json", StructureReader.FileContent.missing)]) = true
    ∧ ∃ e, StructureReader.readAllStructures
        [("a.json", StructureReader.FileContent.json
            ⟨some "F", some []⟩),
         ("b.json", StructureReader.FileContent.missing)] = Except.error e
        ∧ e.path = "b.json" := by
  have h := claim_C5
    [("a.json", StructureReader.FileContent.json ⟨some "F", some []⟩),
     ("b.json", StructureReader.FileContent.missing)]
    [("a.json", StructureReader.FileContent.json ⟨some "F", some []⟩)]
    [] "b.json" StructureReader.FileContent.missing trivial
  exact ⟨h.1 (by decide), h.2 rfl (by decide)⟩

/-- C6, as amended: for every structure, each facet flagged as a sub-facet
whose parent id is present but not an id of any facet in the same
structure, and whose loop iteration is not cut short by the missing-source
`continue` (source check disabled or source present), contributes exactly
one orphan-sub-facet error naming its own id; such an error makes the
structure's `valid` flag false.  The original claim did not except facets
skipped by the missing-source `continue`. -/
theorem claim_C6 (cfg : Validator.VConfig)
    (sourceOk sectionOk : Facet → Bool) (s : FacetStructure)
    (structureFile : String)
    (hsrc : ∀ g ∈ s.facets, cfg.requireSourceExists = false
      ∨ sourceOk g = true) :
    ((Validator.validateStructure cfg sourceOk sectionOk s
        structureFile).errors.filter
          (fun e => e.kind == Validator.VKind.orphanSubfacet))
      = (s.facets.filter (fun f => f.isSubFacet && truthy f.parentId
            && !((s.facets.map (fun g => g.id)).contains
                  (f.parentId.getD "")))).map
          (fun f => Validator.mkErr Validator.VKind.orphanSubfacet
            ("Sub-facet '" ++ f.id ++ "' references non-existent parent '"
              ++ f.parentId.getD "" ++ "'") structureFile f.id)
    ∧ ∀ f ∈ s.facets, f.isSubFacet = true → truthy f.parentId = true →
        (s.facets.map (fun g => g.id)).contains (f.parentId.getD "")
          = false →
        (Validator.validateStructure cfg sourceOk sectionOk s
          structureFile).valid = false := by
  refine ⟨Validator.validateStructure_orphan_filter cfg sourceOk sectionOk
    s structureFile hsrc, ?_⟩
  intro f hf hsub hpid hnp
  exact Validator.validateStructure_orphan_invalid cfg sourceOk sectionOk
    s structureFile f hf hsub hpid hnp (hsrc f hf)

/-- Counterexample to the original C6: with source-existence checking on
and the sub-facet's source file missing, the `continue` skips the orphan
check, so an orphan sub-facet yields no orphan-sub-facet error at all. -/
theorem claim_C6_counterexample :
    ((Validator.validateStructure ⟨true, false⟩ (fun _ => false)
        (fun _ => true)
        ⟨"F", [⟨"t:p/sub", "d.md", "s", none, "t", none, none,
          some "t:gone", true⟩]⟩ "f.json").errors.filter
      (fun e => e.kind == Validator.VKind.orphanSubfacet)) = []
    ∧ (⟨"t:p/sub", "d.md", "s", none, "t", none, none, some "t:gone",
        true⟩ : Facet).isSubFacet = true
    ∧ truthy (some "t:gone") = true
    ∧ ([⟨"t:p/sub", "d.md", "s", none, "t", none, none, some "t:gone",
        true⟩] : List Facet).map (fun g => g.id) = ["t:p/sub"]
    ∧ (["t:p/sub"].contains "t:gone") = false := by
  exact ⟨by decide, rfl, by decide, by decide, by decide⟩

/-- Witness for C6: an orphan sub-facet with the source check disabled
invalidates its structure. -/
theorem claim_C6_witness :
    (Validator.validateStructure ⟨false, false⟩ (fun _ => true)
        (fun _ => true)
        ⟨"F", [⟨"t:p/sub", "d.md", "s", none, "t", none, none,
          some "t:gone", true⟩]⟩ "f.json").valid = false := by
  exact (claim_C6 ⟨false, false⟩ (fun _ => true) (fun _ => true)
    ⟨"F", [⟨"t:p/sub", "d.md", "s", none, "t", none, none,
      some "t:gone", true⟩]⟩ "f.json" (fun g _ => Or.inl rfl)).2
    ⟨"t:p/sub", "d.md", "s", none, "t", none, none, some "t:gone", true⟩
    (by decide) rfl (by decide) (by decide)

/-- C10: a structure file whose facets array repeats an id can never be
read successfully (a successful read has pairwise-distinct ids); with a
well-formed first facet the thrown error is precisely the duplicate-id
read error; consequently every duplicate-id finding of the validator, run
on the map produced by a successful `readAllStructures`, names an id that
occurs in two structures under different file keys, never twice within
one. -/
theorem claim_C10 :
    (∀ (path : String) (c : StructureReader.FileContent) (s : FacetStructure),
      StructureReader.readStructure path c = Except.ok s →
      (s.facets.map (fun f => f.id)).Nodup)
    ∧ (∀ (path : String) (ls : StructureReader.LooseStructure)
        (f1 f2 : StructureReader.LooseFacet),
        ls.facets = some [f1, f2] → truthy ls.feature = true →
        truthy f1.id = true → truthy f1.sourceFile = true →
        truthy f1.sourceSection = true → truthy f1.type = true →
        f2.id = f1.id →
        StructureReader.readStructure path
            (StructureReader.FileContent.json ls)
          = Except.error ⟨path,
              StructureReader.ReadErrKind.duplicateFacetId (f1.id.getD "")⟩)
    ∧ (∀ (cfg : Validator.VConfig) (sourceOk sectionOk : Facet → Bool)
        (files : List (String × StructureReader.FileContent))
        (m : List (String × FacetStructure))
        (testLinks : List TestScanner.TestLink)
        (e : Validator.ValidationError),
        StructureReader.readAllStructures files = Except.ok m →
        e ∈ (Validator.validate cfg sourceOk sectionOk m testLinks).errors →
        e.kind = Validator.VKind.duplicateId →
        ∃ file2 s2 id, (file2, s2) ∈ m ∧ e.file = some file2 ∧
          e.facetId = some id ∧ id ∈ s2.facets.map (fun f => f.id) ∧
          ∃ file1 s1, (file1, s1) ∈ m ∧ file1 ≠ file2 ∧
            id ∈ s1.facets.map (fun f => f.id)) := by
  refine ⟨?_, ?_, ?_⟩
  · intro path c s h
    exact StructureReader.readStructure_ok_nodup h
  · intro path ls f1 f2 hfs hft h1 h2 h3 h4 hdup
    have hf : ¬ (truthy ls.feature = false) := by
      rw [hft]; simp
    simp only [StructureReader.readStructure, if_neg hf, hfs]
    have hv : StructureReader.validateFacets path [] [f1, f2]
        = Except.error ⟨path, StructureReader.ReadErrKind.duplicateFacetId
            (f1.id.getD "")⟩ := by
      simp only [StructureReader.validateFacets]
      rw [if_neg (by rw [h1]; simp), if_neg (by simp),
        if_neg (by rw [h2]; simp), if_neg (by rw [h3]; simp),
        if_neg (by rw [h4]; simp)]
      rw [if_neg (by rw [hdup, h1]; simp),
        if_pos (by rw [hdup]; simp), hdup]
    rw [hv]
  · intro cfg sourceOk sectionOk files m testLinks e hread he hk
    obtain ⟨hkeys, hstr⟩ := StructureReader.readAllAux_ok_good files [] m
      hread List.nodup_nil (fun x hx => absurd hx (List.not_mem_nil x))
    exact Validator.validate_duplicate_errors cfg sourceOk sectionOk m
      testLinks e hkeys hstr he hk

/-- Witness for C10: a clean single-facet read, a concrete within-file
duplicate that throws at read time, and a concrete cross-file duplicate
flagged by the validator. -/
theorem claim_C10_witness :
    (([⟨"t:x", "da.md", "s", none, "t", none, none, none, false⟩]
        : List Facet).map (fun f => f.id)).Nodup
    ∧ StructureReader.readStructure "a.json"
        (StructureReader.FileContent.json ⟨some "F",
          some [⟨some "t:x", some "da.md", some "s", none, some "t",
              none, none, none, none⟩,
            ⟨some "t:x", some "db.md", some "s2", none, some "t",
              none, none, none, none⟩]⟩)
      = Except.error ⟨"a.json",
          StructureReader.ReadErrKind.duplicateFacetId "t:x"⟩
    ∧ ∃ file2 s2 id,
        (file2, s2) ∈ ([("a.json",
            ⟨"FA", [⟨"t:x", "da.md", "s", none, "t", none, none, none,
              false⟩]⟩),
          ("b.json",
            ⟨"FB", [⟨"t:x", "db.md", "s", none, "t", none, none, none,
              false⟩]⟩)] : List (String × FacetStructure))
        ∧ (Validator.mkErr Validator.VKind.duplicateId
            ("Duplicate facet ID 't:x' found in multiple structure files")
            "b.json" "t:x").file = some file2
        ∧ (Validator.mkErr Validator.VKind.duplicateId
            ("Duplicate facet ID 't:x' found in multiple structure files")
            "b.json" "t:x").facetId = some id
        ∧ id ∈ s2.facets.map (fun f => f.id)
        ∧ ∃ file1 s1,
            (file1, s1) ∈ ([("a.json",
                ⟨"FA", [⟨"t:x", "da.md", "s", none, "t", none, none, none,
                  false⟩]⟩),
              ("b.json",
                ⟨"FB", [⟨"t:x", "db.md", "s", none, "t", none, none, none,
                  false⟩]⟩)] : List (String × FacetStructure))
            ∧ file1 ≠ file2
            ∧ id ∈ s1.facets.map (fun f => f.id) := by
  refine ⟨?_, ?_, ?_⟩
  · exact claim_C10.1 "a.json"
      (StructureReader.FileContent.json ⟨some "F",
        some [⟨some "t:x", some "da.md", some "s", none, some "t",
          none, none, none, none⟩]⟩)
      ⟨"F", [⟨"t:x", "da.md", "s", none, "t", none, none, none, false⟩]⟩
      rfl
  · exact claim_C10.2.1 "a.json"
      ⟨some "F", some [⟨some "t:x", some "da.md", some "s", none, some "t",
          none, none, none, none⟩,
        ⟨some "t:x", some "db.md", some "s2", none, some "t",
          none, none, none, none⟩]⟩
      ⟨some "t:x", some "da.md", some "s", none, some "t",
        none, none, none, none⟩
      ⟨some "t:x", some "db.md", some "s2", none, some "t",
        none, none, none, none⟩
      (by decide) (by decide) (by decide) (by decide) (by decide)
      (by decide) (by decide)
  · exact claim_C10.2.2 ⟨false, false⟩ (fun _ => true) (fun _ => true)
      [("a.json", StructureReader.FileContent.json ⟨some "FA",
          some [⟨some "t:x", some "da.md", some "s", none, some "t",
            none, none, none, none⟩]⟩),
        ("b.json", StructureReader.FileContent.json ⟨some "FB",
          some [⟨some "t:x", some "db.md", some "s", none, some "t",
            none, none, none, none⟩]⟩)]
      [("a.json",
          ⟨"FA", [⟨"t:x", "da.md", "s", none, "t", none, none, none,
            false⟩]⟩),
        ("b.json",
          ⟨"FB", [⟨"t:x", "db.md", "s", none, "t", none, none, none,
            false⟩]⟩)]
      []
      (Validator.mkErr Validator.VKind.duplicateId
        ("Duplicate facet ID 't:x' found in multiple structure files")
        "b.json" "t:x")
      rfl (by decide) (by decide)
